import Mathlib

/-!
Shallow embedding of the core of the `rtmp-server` repository (Go), covering:
the AMF0/AMF3 codecs (`amf0.go`, `unnamed/part_002`), the RTMP chunk codec
(`rtmp_packet.go` / `unnamed/part_008` for the encoder, `unnamed/part_010`
`ReadChunk` for the decoder), the channel registry (`rtmp_server.go`), the
publishing session handlers (`unnamed/part_010`, `rtmp_session.go`), the
play-parameter parser (`unnamed/part_015`) and the keepalive constants
(`rtmp_utils.go`, `unnamed/part_015`).

Machine integers are modelled as `Nat` (with `% 2^w` where the Go code
relies on wrap-around of `uint32`/`byte`) or `Int` for `int64` fields.
Byte slices are `List Nat`.  Go `map` values are association lists.
Code that can panic (out-of-range slice indexing, nil dereference) is
modelled in `Option`, `none` being the panic.
-/

/-- Go `byte(x)` conversion: truncation to 8 bits. -/
def byteOf (n : Nat) : Nat := n % 256

/-- Go `binary.BigEndian.PutUint32`: 4 bytes, most significant first. -/
def putUint32BE (n : Nat) : List Nat :=
  [byteOf (n >>> 24), byteOf (n >>> 16), byteOf (n >>> 8), byteOf n]

/-- Go `binary.LittleEndian.PutUint32`: 4 bytes, least significant first. -/
def putUint32LE (n : Nat) : List Nat :=
  [byteOf n, byteOf (n >>> 8), byteOf (n >>> 16), byteOf (n >>> 24)]

/-- Go `binary.BigEndian.PutUint16`: 2 bytes, most significant first. -/
def putUint16BE (n : Nat) : List Nat :=
  [byteOf (n >>> 8), byteOf n]

/-- Go `binary.BigEndian.Uint32` over a 4-byte slice (here: first 4 list
entries, which the callers always have). -/
def getUint32BE (b : List Nat) : Nat :=
  (b.getD 0 0) <<< 24 ||| (b.getD 1 0) <<< 16 ||| (b.getD 2 0) <<< 8 ||| b.getD 3 0

/-- Go `binary.LittleEndian.Uint32` over a 4-byte slice. -/
def getUint32LE (b : List Nat) : Nat :=
  (b.getD 3 0) <<< 24 ||| (b.getD 2 0) <<< 16 ||| (b.getD 1 0) <<< 8 ||| b.getD 0 0

/-- Go `binary.BigEndian.Uint16` over a 2-byte slice. -/
def getUint16BE (b : List Nat) : Nat :=
  (b.getD 0 0) <<< 8 ||| b.getD 1 0

/-- Splitting a character list at every occurrence of `sep`. -/
def splitOnChar (sep : Char) : List Char → List (List Char)
  | [] => [[]]
  | c :: rest =>
    match splitOnChar sep rest with
    | [] => [[]]
    | cur :: parts => if c = sep then [] :: cur :: parts else (c :: cur) :: parts

/-- Go `strings.Split(s, sep)` for the one-character separators (`"?"`,
`"&"`, `"="`) used in the sources. -/
def goSplit (sep : Char) (s : String) : List String :=
  (splitOnChar sep s.toList).map List.asString

namespace RtmpUtils

/- Constants from `src/rtmp_utils.go` (lines 64-66). -/

def RTMP_CHUNK_SIZE : Nat := 128
def RTMP_PING_TIME : Nat := 60000
def RTMP_PING_TIMEOUT : Nat := 30000

end RtmpUtils

namespace Part015

/- Constants from `src/unnamed/part_015` (lines 71-73). -/

def RTMP_CHUNK_SIZE : Nat := 128
def RTMP_PING_TIME : Nat := 30000
def RTMP_PING_TIMEOUT : Nat := 60000

/-- Association-list read with the Go `map[string]string` default `""`. -/
def lookupStr (m : List (String × String)) (k : String) : String :=
  match m.find? (fun p => p.1 == k) with
  | some p => p.2
  | none => ""

/-- Go `map[string]string` assignment `m[k] = v` (replace or append). -/
def insertStr (m : List (String × String)) (k v : String) : List (String × String) :=
  if m.any (fun p => p.1 == k) then
    m.map (fun p => if p.1 == k then (k, v) else p)
  else
    m ++ [(k, v)]

/-- `getRTMPParamsSimple` from `src/unnamed/part_015` (lines 303-318).
The assignment in the loop body is, verbatim from the source,
`result[keyVal[0]] = result[keyVal[1]]`: the value stored is the *lookup of
`keyVal[1]` in the result map built so far* (default `""`), not `keyVal[1]`
itself. -/
def getRTMPParamsSimple (str : String) : List (String × String) :=
  if str.length > 0 then
    (goSplit '&' str).foldl
      (fun result part =>
        let keyVal := goSplit '=' part
        if keyVal.length == 2 then
          insertStr result (keyVal.getD 0 "") (lookupStr result (keyVal.getD 1 ""))
        else result)
      []
  else []

end Part015

namespace Amf3

/- AMF3 codec from `src/unnamed/part_002`. -/

def AMF3_TYPE_UNDEFINED : Nat := 0x00
def AMF3_TYPE_NULL : Nat := 0x01
def AMF3_TYPE_FALSE : Nat := 0x02
def AMF3_TYPE_TRUE : Nat := 0x03
def AMF3_TYPE_INTEGER : Nat := 0x04
def AMF3_TYPE_DOUBLE : Nat := 0x05

/-- `amf3encUI29` (lines 49-71).  The argument is a Go `uint32`.
Note the source's final branch sets the two high bytes with `| 0x7F`
(not `& 0x7F`), and in every branch the low value bits are emitted first
with the continuation bit placed on the *last* byte. -/
def amf3encUI29 (num : Nat) : List Nat :=
  if num < 0x80 then
    [byteOf num]
  else if num < 0x4000 then
    [byteOf (num &&& 0x7F), byteOf ((num >>> 7) ||| 0x80)]
  else if num < 0x200000 then
    [byteOf (num &&& 0x7F), byteOf ((num >>> 7) &&& 0x7F), byteOf ((num >>> 14) ||| 0x80)]
  else
    [byteOf (num &&& 0xFF), byteOf ((num >>> 8) &&& 0x7F),
      byteOf ((num >>> 15) ||| 0x7F), byteOf ((num >>> 22) ||| 0x7F)]

/-- Loop body of `amf3decUI29` (lines 127-152).  State: `val` and `len` as in
the source (`len` starts at 1 and is incremented before the exit test, so the
test `len < 5 || b > 0x7F` is evaluated with `len = 2` on the first pass).
Returns `(val, len, b)` at loop exit, `none` when `Read(1)` runs past the
buffer (Go panic). -/
def amf3decUI29Loop : List Nat → Nat → Nat → Option (Nat × Nat × Nat × List Nat)
  | [], _, _ => none
  | b :: rest, val, len =>
    let len' := len + 1
    let val' := (val <<< 7) % 2 ^ 32 + (b &&& 0x7F)
    if len' < 5 || b > 0x7F then
      some (val' % 2 ^ 32, len', b, rest)
    else
      amf3decUI29Loop rest (val' % 2 ^ 32) len'

/-- `amf3decUI29` (lines 127-152): runs the loop from `val = 0`, `len = 1`,
then applies the source's `if len == 5 { val = val | b }` fix-up.
Returns the decoded value and the unread remainder of the buffer. -/
def amf3decUI29 (s : List Nat) : Option (Nat × List Nat) :=
  match amf3decUI29Loop s 0 1 with
  | none => none
  | some (val, len, b, rest) =>
    if len == 5 then some (val ||| b, rest) else some (val, rest)

end Amf3

/-- Go `binary.BigEndian.PutUint64`. -/
def putUint64BE (n : Nat) : List Nat :=
  [byteOf (n >>> 56), byteOf (n >>> 48), byteOf (n >>> 40), byteOf (n >>> 32),
   byteOf (n >>> 24), byteOf (n >>> 16), byteOf (n >>> 8), byteOf n]

/-- Go `binary.BigEndian.Uint64` over an 8-byte slice. -/
def getUint64BE (b : List Nat) : Nat :=
  (b.getD 0 0) <<< 56 ||| (b.getD 1 0) <<< 48 ||| (b.getD 2 0) <<< 40 |||
  (b.getD 3 0) <<< 32 ||| (b.getD 4 0) <<< 24 ||| (b.getD 5 0) <<< 16 |||
  (b.getD 6 0) <<< 8 ||| b.getD 7 0

/-- Bytewise lexicographic order on byte strings — the order of Go string
comparison, used by `sort.Strings` in `amf0EncodeObject`. -/
def bytesLt : List Nat → List Nat → Bool
  | [], [] => false
  | [], _ :: _ => true
  | _ :: _, [] => false
  | a :: as, b :: bs => if a < b then true else if b < a then false else bytesLt as bs

namespace Amf0

/- AMF0 codec from `src/amf0.go` (first variant: the one with pointer-valued
objects and the `AMFDecodingStream`).  Go strings are byte strings
(`List Nat`).  The Go value is a struct carrying a type tag `amf_type` plus
one field per variant; it is modelled as the tagged sum over the variants
reachable by construction.  `Number` and `Date` carry `float_val`; since the
encoder stores `math.Float64bits` and the decoder applies the inverse
`math.Float64frombits`, the payload is modelled by its 64-bit pattern.
A Go `map[string]*AMF0Value` is represented canonically as an association
list sorted by `bytesLt` on the keys, so that the encoder's
`sort.Strings(keys)` iteration is iteration over the representation, and the
decoder's map assignment is sorted insertion. -/

def AMF0_TYPE_NUMBER : Nat := 0x00
def AMF0_TYPE_BOOL : Nat := 0x01
def AMF0_TYPE_STRING : Nat := 0x02
def AMF0_TYPE_OBJECT : Nat := 0x03
def AMF0_TYPE_NULL : Nat := 0x05
def AMF0_TYPE_UNDEFINED : Nat := 0x06
def AMF0_TYPE_REF : Nat := 0x07
def AMF0_TYPE_ARRAY : Nat := 0x08
def AMF0_TYPE_STRICT_ARRAY : Nat := 0x0A
def AMF0_TYPE_DATE : Nat := 0x0B
def AMF0_TYPE_LONG_STRING : Nat := 0x0C
def AMF0_TYPE_XML_DOC : Nat := 0x0F
def AMF0_TYPE_TYPED_OBJ : Nat := 0x10
def AMF0_OBJECT_TERM_CODE : Nat := 0x09

inductive AMF0Value where
  | number (bits : Nat)
  | bool (b : Bool)
  | str (bytes : List Nat)
  | longString (bytes : List Nat)
  | xmlDoc (bytes : List Nat)
  | date (bits : Nat)
  | null
  | undefined
  | ref (index : Nat)
  | object (fields : List (List Nat × AMF0Value))
  | typedObj (className : List Nat) (fields : List (List Nat × AMF0Value))
  | ecmaArray (fields : List (List Nat × AMF0Value))
  | strictArray (items : List AMF0Value)
  deriving Repr

/-- `amf0EncodeNumber` (lines 256-261): 8 bytes IEEE-754 big-endian
(the bit pattern, `math.Float64bits`). -/
def amf0EncodeNumber (bits : Nat) : List Nat := putUint64BE bits

/-- `amf0EncodeBool` (lines 263-269). -/
def amf0EncodeBool (b : Bool) : List Nat := if b then [0x01] else [0x00]

/-- `amf0EncodeDate` (lines 271-273): two reserved zero bytes then the
8-byte float. -/
def amf0EncodeDate (bits : Nat) : List Nat := 0x00 :: 0x00 :: amf0EncodeNumber bits

/-- `amf0EncodeString` (lines 275-280): 2-byte big-endian length
(`uint16(len(b))`, truncating) followed by the bytes. -/
def amf0EncodeString (s : List Nat) : List Nat := putUint16BE (s.length % 2 ^ 16) ++ s

/-- `amf0EncodeLongString` (lines 282-287): 4-byte big-endian length followed
by the bytes.  Defined in the source but never called by `amf0EncodeOne`. -/
def amf0EncodeLongString (s : List Nat) : List Nat :=
  putUint32BE (s.length % 2 ^ 32) ++ s

/-- `amf0EncodeRef` (lines 338-342): 2-byte big-endian index
(`uint16(val.int_val)`, truncating). -/
def amf0EncodeRef (index : Nat) : List Nat := putUint16BE (index % 2 ^ 16)

mutual

/-- `amf0EncodeOne` (lines 221-254): 1-byte type marker, then the body.
`LongString` and `XmlDoc` are both encoded with `amf0EncodeString`
(2-byte length) in the source — `amf0EncodeLongString` is not used. -/
def amf0EncodeOne : AMF0Value → List Nat
  | .number bits => AMF0_TYPE_NUMBER :: amf0EncodeNumber bits
  | .bool b => AMF0_TYPE_BOOL :: amf0EncodeBool b
  | .date bits => AMF0_TYPE_DATE :: amf0EncodeDate bits
  | .str s => AMF0_TYPE_STRING :: amf0EncodeString s
  | .xmlDoc s => AMF0_TYPE_XML_DOC :: amf0EncodeString s
  | .longString s => AMF0_TYPE_LONG_STRING :: amf0EncodeString s
  | .object o => AMF0_TYPE_OBJECT :: amf0EncodeObject o
  | .ref index => AMF0_TYPE_REF :: amf0EncodeRef index
  | .ecmaArray o => AMF0_TYPE_ARRAY :: amf0EncodeArray o
  | .strictArray a => AMF0_TYPE_STRICT_ARRAY :: amf0EncodeStrictArray a
  | .typedObj c o => AMF0_TYPE_TYPED_OBJ :: amf0EncodeTypedObject c o
  | .null => [AMF0_TYPE_NULL]
  | .undefined => [AMF0_TYPE_UNDEFINED]

/-- `amf0EncodeObject` (lines 289-314): each `(2-byte-length key, value)`
pair in sorted key order, terminated by the empty key and the type-9
sentinel.  The representation is key-sorted, so plain iteration realises the
source's `sort.Strings(keys)` loop. -/
def amf0EncodeObject (o : List (List Nat × AMF0Value)) : List Nat :=
  amf0EncodeFields o ++ amf0EncodeString [] ++ [AMF0_OBJECT_TERM_CODE]

def amf0EncodeFields : List (List Nat × AMF0Value) → List Nat
  | [] => []
  | (key, element) :: rest =>
    amf0EncodeString key ++ amf0EncodeOne element ++ amf0EncodeFields rest

/-- `amf0EncodeArray` (lines 316-323): 4-byte length hint
(`uint32(len(o))`) then the object encoding. -/
def amf0EncodeArray (o : List (List Nat × AMF0Value)) : List Nat :=
  putUint32BE (o.length % 2 ^ 32) ++ amf0EncodeObject o

/-- `amf0EncodeStrictArray` (lines 325-336): 4-byte count then the encoded
elements. -/
def amf0EncodeStrictArray (a : List AMF0Value) : List Nat :=
  putUint32BE (a.length % 2 ^ 32) ++ amf0EncodeStrictItems a

def amf0EncodeStrictItems : List AMF0Value → List Nat
  | [] => []
  | v :: rest => amf0EncodeOne v ++ amf0EncodeStrictItems rest

/-- `amf0EncodeTypedObject` (lines 344-348): class name string then the
object encoding. -/
def amf0EncodeTypedObject (className : List Nat) (o : List (List Nat × AMF0Value)) :
    List Nat :=
  amf0EncodeString className ++ amf0EncodeObject o

end

/-- `AMFDecodingStream` (lines 352-374): a bounded byte slice and a cursor. -/
structure AMFDecodingStream where
  buffer : List Nat
  pos : Nat
  deriving Repr, DecidableEq

/-- `Read(n)` (lines 357-361): `s.buffer[s.pos : s.pos+n]`; a slice past the
end panics (`none`). -/
def AMFDecodingStream.Read (s : AMFDecodingStream) (n : Nat) :
    Option (List Nat × AMFDecodingStream) :=
  if s.pos + n ≤ s.buffer.length then
    some ((s.buffer.drop s.pos).take n, { s with pos := s.pos + n })
  else none

/-- `Look(n)` (lines 363-366): like `Read` but without advancing. -/
def AMFDecodingStream.Look (s : AMFDecodingStream) (n : Nat) : Option (List Nat) :=
  if s.pos + n ≤ s.buffer.length then some ((s.buffer.drop s.pos).take n) else none

/-- `Skip(n)` (lines 368-370): advances the cursor unconditionally. -/
def AMFDecodingStream.Skip (s : AMFDecodingStream) (n : Nat) : AMFDecodingStream :=
  { s with pos := s.pos + n }

/-- `IsEnded` (lines 372-374). -/
def AMFDecodingStream.IsEnded (s : AMFDecodingStream) : Bool :=
  s.pos ≥ s.buffer.length

/-- `ReadNumber` (lines 410-414), as the 64-bit pattern. -/
def AMFDecodingStream.ReadNumber (s : AMFDecodingStream) :
    Option (Nat × AMFDecodingStream) :=
  (s.Read 8).map (fun r => (getUint64BE r.1, r.2))

/-- `ReadBool` (lines 416-419). -/
def AMFDecodingStream.ReadBool (s : AMFDecodingStream) :
    Option (Bool × AMFDecodingStream) :=
  (s.Read 1).map (fun r => (r.1.getD 0 0 != 0x00, r.2))

/-- `ReadString` (lines 421-425): 2-byte big-endian length, then the bytes. -/
def AMFDecodingStream.ReadString (s : AMFDecodingStream) :
    Option (List Nat × AMFDecodingStream) :=
  match s.Read 2 with
  | none => none
  | some (l, s1) => s1.Read (getUint16BE l)

/-- `ReadLongString` (lines 427-431): 4-byte big-endian length, then the
bytes. -/
def AMFDecodingStream.ReadLongString (s : AMFDecodingStream) :
    Option (List Nat × AMFDecodingStream) :=
  match s.Read 4 with
  | none => none
  | some (l, s1) => s1.Read (getUint32BE l)

/-- Go map assignment `o[propName] = &propVal` on the key-sorted
association-list representation of the map. -/
def insertField (o : List (List Nat × AMF0Value)) (key : List Nat) (v : AMF0Value) :
    List (List Nat × AMF0Value) :=
  match o with
  | [] => [(key, v)]
  | (k, w) :: rest =>
    if bytesLt key k then (key, v) :: (k, w) :: rest
    else if key = k then (key, v) :: rest
    else (k, w) :: insertField rest key v

mutual

/-- `ReadOne` (lines 376-408).  The `fuel` bounds the recursion depth; any
encoded input is decoded within `fuel ≥` its length + 2.  Markers outside the
constructible value space (including `0x11`, the AMF3 switch, whose values
the claim set excludes) are not modelled (`none`). -/
def ReadOne : Nat → AMFDecodingStream → Option (AMF0Value × AMFDecodingStream)
  | 0, _ => none
  | fuel + 1, s =>
    match s.Read 1 with
    | none => none
    | some (mk, s1) =>
      let amf_type := mk.getD 0 0
      if amf_type == AMF0_TYPE_NUMBER then
        (s1.ReadNumber).map (fun r => (.number r.1, r.2))
      else if amf_type == AMF0_TYPE_BOOL then
        (s1.ReadBool).map (fun r => (.bool r.1, r.2))
      else if amf_type == AMF0_TYPE_DATE then
        ((s1.Skip 2).ReadNumber).map (fun r => (.date r.1, r.2))
      else if amf_type == AMF0_TYPE_STRING then
        (s1.ReadString).map (fun r => (.str r.1, r.2))
      else if amf_type == AMF0_TYPE_XML_DOC then
        (s1.ReadString).map (fun r => (.xmlDoc r.1, r.2))
      else if amf_type == AMF0_TYPE_LONG_STRING then
        (s1.ReadLongString).map (fun r => (.longString r.1, r.2))
      else if amf_type == AMF0_TYPE_OBJECT then
        (ReadObjectLoop fuel s1 []).map (fun r => (.object r.1, r.2))
      else if amf_type == AMF0_TYPE_TYPED_OBJ then
        match s1.ReadString with
        | none => none
        | some (className, s2) =>
          (ReadObjectLoop fuel s2 []).map (fun r => (.typedObj className r.1, r.2))
      else if amf_type == AMF0_TYPE_REF then
        some (.ref 0, s1.Skip 2)
      else if amf_type == AMF0_TYPE_ARRAY then
        (ReadObjectLoop fuel (s1.Skip 4) []).map (fun r => (.ecmaArray r.1, r.2))
      else if amf_type == AMF0_TYPE_STRICT_ARRAY then
        match s1.Read 4 with
        | none => none
        | some (l, s2) =>
          (ReadStrictLoop fuel (getUint32BE l) s2 []).map
            (fun r => (.strictArray r.1, r.2))
      else if amf_type == AMF0_TYPE_NULL then some (.null, s1)
      else if amf_type == AMF0_TYPE_UNDEFINED then some (.undefined, s1)
      else none

/-- The loop of `ReadObject` (lines 433-446):
`for !s.IsEnded() && s.Look(1)[0] != TERM { propName := ReadString;
if s.Look(1)[0] != TERM { o[propName] = ReadOne } }`.
Note the terminator byte itself is never consumed. -/
def ReadObjectLoop : Nat → AMFDecodingStream → List (List Nat × AMF0Value) →
    Option (List (List Nat × AMF0Value) × AMFDecodingStream)
  | 0, _, _ => none
  | fuel + 1, s, o =>
    if s.IsEnded then some (o, s)
    else
      match s.Look 1 with
      | none => none
      | some peek =>
        if peek.getD 0 0 == AMF0_OBJECT_TERM_CODE then some (o, s)
        else
          match s.ReadString with
          | none => none
          | some (propName, s1) =>
            match s1.Look 1 with
            | none => none
            | some peek2 =>
              if peek2.getD 0 0 == AMF0_OBJECT_TERM_CODE then
                ReadObjectLoop fuel s1 o
              else
                match ReadOne fuel s1 with
                | none => none
                | some (propVal, s2) =>
                  ReadObjectLoop fuel s2 (insertField o propName propVal)

/-- The loop of `ReadStrictArray` (lines 454-466):
`for i := 0; i < l && !s.IsEnded(); i++`. -/
def ReadStrictLoop : Nat → Nat → AMFDecodingStream → List AMF0Value →
    Option (List AMF0Value × AMFDecodingStream)
  | 0, _, _, _ => none
  | fuel + 1, l, s, acc =>
    if l == 0 || s.IsEnded then some (acc, s)
    else
      match ReadOne fuel s with
      | none => none
      | some (v, s1) => ReadStrictLoop fuel (l - 1) s1 (acc ++ [v])

end

/-- Decoding entry point: `ReadOne` on a stream over the given buffer with
the cursor at 0. -/
def ReadOneFromBytes (fuel : Nat) (b : List Nat) :
    Option (AMF0Value × AMFDecodingStream) :=
  ReadOne fuel { buffer := b, pos := 0 }

end Amf0

namespace Chunks

/- RTMP chunk codec.  Encoder: `RTMPPacket.CreateChunks` and its helpers from
`src/rtmp_packet.go` (lines 51-174) / `src/unnamed/part_008` (identical up to
a `| 0`).  Decoder: `RTMPSession.ReadChunk` from `src/unnamed/part_010`
(lines 235-460).  Constants from `src/rtmp_utils.go` / `src/unnamed/part_015`. -/

def RTMP_CHUNK_TYPE_0 : Nat := 0
def RTMP_CHUNK_TYPE_1 : Nat := 1
def RTMP_CHUNK_TYPE_2 : Nat := 2
def RTMP_CHUNK_TYPE_3 : Nat := 3
def RTMP_TYPE_METADATA : Nat := 22
def RTMP_PACKET_BASE_SIZE : Nat := 65
def RTMP_CHANNEL_AUDIO : Nat := 4
def RTMP_CHANNEL_VIDEO : Nat := 5
def RTMP_TYPE_AUDIO : Nat := 8
def RTMP_TYPE_VIDEO : Nat := 9

/-- `var rtmpHeaderSize = []uint32{11, 7, 3, 0}` -/
def rtmpHeaderSize : List Nat := [11, 7, 3, 0]

structure RTMPPacketHeader where
  timestamp : Int
  fmt : Nat
  cid : Nat
  packet_type : Nat
  stream_id : Nat
  length : Nat
  deriving Repr, DecidableEq

structure RTMPPacket where
  header : RTMPPacketHeader
  clock : Int
  payload : List Nat
  capacity : Nat
  bytes : Nat
  handled : Bool
  deriving Repr, DecidableEq

def createBlankRTMPPacket : RTMPPacket :=
  { header := { timestamp := 0, fmt := 0, cid := 0, packet_type := 0,
                stream_id := 0, length := 0 },
    clock := 0, payload := [], capacity := 0, bytes := 0, handled := false }

/-- Go `uint32(i)` for an `int64` argument: two's-complement truncation. -/
def int64ToUint32 (i : Int) : Nat := (i % (2 ^ 32 : Int)).toNat

/-- `rtmpChunkBasicHeaderCreate` (rtmp_packet.go lines 51-69).
In the 3-byte branch the source writes `out[2] = byte(cid-64>>8) & 0xff`;
`>>` binds tighter than `-` in Go, so this is `byte(cid - (64 >> 8)) = byte(cid)`. -/
def rtmpChunkBasicHeaderCreate (fmt cid : Nat) : List Nat :=
  if cid ≥ 64 + 255 then
    [byteOf (fmt <<< 6) ||| 1, byteOf (cid - 64) &&& 0xff, byteOf (cid - (64 >>> 8)) &&& 0xff]
  else if cid ≥ 64 then
    [byteOf (fmt <<< 6), byteOf (cid - 64) &&& 0xff]
  else
    [byteOf (fmt <<< 6) ||| byteOf cid]

/-- `rtmpChunkMessageHeaderCreate` (rtmp_packet.go lines 71-99).  Each Go
`PutUint32` followed by `append(out, b[1:]...)` keeps the low 3 bytes. -/
def rtmpChunkMessageHeaderCreate (packet : RTMPPacket) : List Nat :=
  (if packet.header.fmt ≤ RTMP_CHUNK_TYPE_2 then
    (if packet.header.timestamp ≥ 0xffffff then
      (putUint32BE 0xffffff).drop 1
    else
      (putUint32BE (int64ToUint32 packet.header.timestamp)).drop 1)
  else []) ++
  (if packet.header.fmt ≤ RTMP_CHUNK_TYPE_1 then
    (putUint32BE packet.header.length).drop 1 ++ [byteOf packet.header.packet_type]
  else []) ++
  (if packet.header.fmt == RTMP_CHUNK_TYPE_0 then
    putUint32LE packet.header.stream_id
  else [])

/-- The payload loop of `CreateChunks` (rtmp_packet.go lines 150-168): while
more than `outChunkSize` bytes remain, emit one chunk worth of payload
followed by the Type-3 separator (`chunkBasicHeader3`, plus the repeated
extended timestamp when in use); the final partial/full chunk is emitted bare.
For `cs = 0` the Go loop does not terminate; no caller uses `cs < 128`. -/
def createChunksPayloadLoop (cs : Nat) (sep : List Nat) (payload : List Nat) : List Nat :=
  if _h : payload.length > cs ∧ 0 < cs then
    payload.take cs ++ sep ++ createChunksPayloadLoop cs sep (payload.drop cs)
  else
    payload
termination_by payload.length
decreasing_by
  simp only [List.length_drop]
  omega

/-- `RTMPPacket.CreateChunks` (rtmp_packet.go lines 101-174).  The source
preallocates `chunks := make([]byte, n)` and writes the basic header, message
header, optional extended timestamp and the payload loop sequentially at a
cursor; `copy` silently truncates at the end of the buffer and unwritten
bytes stay zero, so the result is the sequential write stream cut (or
zero-padded) to length `n`.  The payload loop transfers
`payloadSize = header.length` bytes of `packet.payload` (panicking if the
payload is shorter); every packet the server sends satisfies
`payload.length = header.length`, and the model drives the loop by the
payload itself. -/
def CreateChunks (packet : RTMPPacket) (outChunkSize : Nat) : List Nat :=
  let chunkBasicHeader := rtmpChunkBasicHeaderCreate packet.header.fmt packet.header.cid
  let chunkBasicHeader3 := rtmpChunkBasicHeaderCreate RTMP_CHUNK_TYPE_3 packet.header.cid
  let chunkMessageHeader := rtmpChunkMessageHeaderCreate packet
  let useExtendedTimestamp := packet.header.timestamp ≥ 0xffffff
  let extBytes := if useExtendedTimestamp then putUint32BE (int64ToUint32 packet.header.timestamp) else []
  let headerSize := chunkBasicHeader.length + chunkMessageHeader.length +
    (if useExtendedTimestamp then 4 else 0)
  let payloadSize := packet.header.length
  let n0 := headerSize + payloadSize + payloadSize / outChunkSize +
    (if useExtendedTimestamp then (payloadSize / outChunkSize) * 4 else 0)
  let n := if payloadSize % outChunkSize == 0 then
    n0 - 1 - (if useExtendedTimestamp then 4 else 0)
  else n0
  let full := chunkBasicHeader ++ chunkMessageHeader ++ extBytes ++
    createChunksPayloadLoop outChunkSize (chunkBasicHeader3 ++ extBytes) packet.payload
  full.take n ++ List.replicate (n - full.length) 0

/-- Reads `n` bytes from the front of the stream; `none` is a short read
(`io.ReadFull` error / read-deadline failure, which ends the session). -/
def readN (n : Nat) (stream : List Nat) : Option (List Nat × List Nat) :=
  if n ≤ stream.length then some (stream.take n, stream.drop n) else none

/-- The receive-side session state used by `ReadChunk`: the inbound chunk
size and the `inPackets` map (channel id → partially assembled packet), plus
the session clock written by `s.SetClock`. -/
structure RTMPSessionIn where
  inChunkSize : Nat
  inPackets : List (Nat × RTMPPacket)
  clock : Int
  deriving Repr, DecidableEq

def lookupPacket : List (Nat × RTMPPacket) → Nat → Option RTMPPacket
  | [], _ => none
  | p :: rest, cid => if p.1 == cid then some p.2 else lookupPacket rest cid

def insertPacket : List (Nat × RTMPPacket) → Nat → RTMPPacket →
    List (Nat × RTMPPacket)
  | [], cid, pkt => [(cid, pkt)]
  | p :: rest, cid, pkt =>
    if p.1 == cid then (cid, pkt) :: rest else p :: insertPacket rest cid pkt

/-- A session state freshly created by `CreateRTMPSession`, restricted to the
fields `ReadChunk` uses (`inChunkSize` defaults to the configured chunk size,
`inPackets` empty, clock 0). -/
def freshSessionIn (cs : Nat) : RTMPSessionIn :=
  { inChunkSize := cs, inPackets := [], clock := 0 }

/-- The `switch parserBasicBytes` of `ReadChunk` (unnamed/part_010 lines
302-309).  Note the 3-byte case: the source computes
`(64 + uint32(header[1]) + uint32(header[2])) << 8`, i.e. the shift is
applied to the whole sum. -/
def readChunkCid (parserBasicBytes startByte : Nat) (header : List Nat) : Nat :=
  if parserBasicBytes == 2 then (64 + header.getD 1 0) % 2 ^ 32
  else if parserBasicBytes == 3 then
    ((64 + header.getD 1 0 + header.getD 2 0) <<< 8) % 2 ^ 32
  else startByte &&& 0x3f

/-- The message-header field decoding of `ReadChunk` (unnamed/part_010 lines
326-352): writes `cid`/`fmt`, then — per the chunk format — the 24-bit
big-endian timestamp, the 24-bit length and 1-byte type, and the 4-byte
little-endian stream id, each at the running `offset`. -/
def readChunkApplyHeader (packet0 : RTMPPacket) (cid fmt parserBasicBytes : Nat)
    (header : List Nat) : RTMPPacket :=
  let packet1 := { packet0 with header := { packet0.header with cid := cid, fmt := fmt } }
  let offset := parserBasicBytes
  let packet2 :=
    if fmt ≤ RTMP_CHUNK_TYPE_2 then
      { packet1 with header := { packet1.header with
          timestamp := Int.ofNat ((header.getD (offset + 2) 0) |||
            ((header.getD (offset + 1) 0) <<< 8) ||| ((header.getD offset 0) <<< 16)) } }
    else packet1
  let offset2 := if fmt ≤ RTMP_CHUNK_TYPE_2 then offset + 3 else offset
  let packet3 :=
    if fmt ≤ RTMP_CHUNK_TYPE_1 then
      { packet2 with header := { packet2.header with
          length := (header.getD (offset2 + 2) 0) |||
            ((header.getD (offset2 + 1) 0) <<< 8) ||| ((header.getD offset2 0) <<< 16),
          packet_type := header.getD (offset2 + 3) 0 } }
    else packet2
  let offset3 := if fmt ≤ RTMP_CHUNK_TYPE_1 then offset2 + 4 else offset2
  if fmt == RTMP_CHUNK_TYPE_0 then
    { packet3 with header := { packet3.header with
        stream_id := getUint32LE ((header.drop offset3).take 4) } }
  else packet3

/-- The extended-timestamp read of `ReadChunk` (unnamed/part_010 lines
359-377): a further 4-byte big-endian value when the 24-bit field is
`0xffffff`, the field itself otherwise. -/
def readChunkExtendedTs (packet4 : RTMPPacket) (rest2 : List Nat) :
    Option (Int × List Nat) :=
  if packet4.header.timestamp == 0xffffff then
    match readN 4 rest2 with
    | none => none
    | some (tsBytes, rest3) => some (Int.ofNat (getUint32BE tsBytes), rest3)
  else some (packet4.header.timestamp, rest2)

/-- The payload accumulation and dispatch of `ReadChunk` (unnamed/part_010
lines 379-430): on the first chunk of a packet set the clock (absolute for
Type-0, delta otherwise) and grow capacity; read
`min(inChunkSize - bytes % inChunkSize, length - bytes)` payload bytes; when
`bytes ≥ length` mark the packet handled and, if `clock ≤ 0xffffffff`,
dispatch it. -/
def readChunkPayload (s : RTMPSessionIn) (packet4 : RTMPPacket) (cid fmt : Nat)
    (extended_timestamp : Int) (rest3 : List Nat) :
    Option (RTMPSessionIn × List Nat × Option RTMPPacket) :=
  let packet5 :=
    if packet4.bytes == 0 then
      let pc := { packet4 with clock :=
        if fmt == RTMP_CHUNK_TYPE_0 then extended_timestamp
        else packet4.clock + extended_timestamp }
      if pc.capacity < pc.header.length then
        { pc with capacity := 1024 + pc.header.length }
      else pc
    else packet4
  let sClock := if packet4.bytes == 0 then packet5.clock else s.clock
  let sizeToRead :=
    min (s.inChunkSize - packet5.bytes % s.inChunkSize)
      (packet5.header.length - packet5.bytes)
  match (if sizeToRead > 0 then readN sizeToRead rest3 else some ([], rest3)) with
  | none => none
  | some (bytesToRead, rest4) =>
    let packet6 := { packet5 with
      bytes := packet5.bytes + sizeToRead,
      payload := packet5.payload ++ bytesToRead }
    let complete := packet6.bytes ≥ packet6.header.length
    let packet7 := if complete then { packet6 with handled := true } else packet6
    let dispatched :=
      if complete ∧ packet7.clock ≤ 0xffffffff then some packet7 else none
    some ({ s with inPackets := insertPacket s.inPackets cid packet7, clock := sClock },
      rest4, dispatched)

/-- `RTMPSession.ReadChunk` (unnamed/part_010 lines 235-460), as a function
from the session state and the inbound byte stream to the updated state, the
unread remainder and the fully reassembled packet handed to `HandlePacket`
(when this chunk completed one).  `none` models every path on which the Go
function returns `false` (short read, or `packet_type > RTMP_TYPE_METADATA`).
The ACK counters and the bitrate meter, which only trigger outbound ACK
messages and a debug log, are not modelled.  In `sizeToRead` the Go `uint32`
subtractions are modelled by `Nat` subtraction and `min`; they agree because
`bytes ≤ length` and `bytes % inChunkSize < inChunkSize` in every state
reachable from a fresh session. -/
def ReadChunk (s : RTMPSessionIn) (stream : List Nat) :
    Option (RTMPSessionIn × List Nat × Option RTMPPacket) :=
  match stream with
  | [] => none
  | startByte :: rest0 =>
    let parserBasicBytes : Nat :=
      if startByte &&& 0x3f == 0 then 2
      else if startByte &&& 0x3f == 1 then 3
      else 1
    match readN (parserBasicBytes - 1) rest0 with
    | none => none
    | some (basicRest, rest1) =>
      let size := rtmpHeaderSize.getD (startByte >>> 6) 0
      match readN size rest1 with
      | none => none
      | some (headerLeft, rest2) =>
        let header := startByte :: (basicRest ++ headerLeft)
        let fmt := startByte >>> 6
        let cid := readChunkCid parserBasicBytes startByte header
        let packet0 :=
          match lookupPacket s.inPackets cid with
          | some p => if p.handled then { p with handled := false, payload := [], bytes := 0 } else p
          | none => createBlankRTMPPacket
        let packet4 := readChunkApplyHeader packet0 cid fmt parserBasicBytes header
        if packet4.header.packet_type > RTMP_TYPE_METADATA then none
        else
          match readChunkExtendedTs packet4 rest2 with
          | none => none
          | some (extended_timestamp, rest3) =>
            readChunkPayload s packet4 cid fmt extended_timestamp rest3

/-- The session read loop (`HandleSession`, unnamed/part_010 lines 225-229)
restricted to the production of the next fully reassembled message: runs
`ReadChunk` until one chunk completes a packet, returning the final session
state, the completed packet and the unread remainder.  `fuel` bounds the
number of chunks consumed. -/
def readChunks : Nat → RTMPSessionIn → List Nat →
    Option (RTMPSessionIn × RTMPPacket × List Nat)
  | 0, _, _ => none
  | fuel + 1, s, stream =>
    match ReadChunk s stream with
    | none => none
    | some (s', rest, some pkt) => some (s', pkt, rest)
    | some (s', rest, none) => readChunks fuel s' rest

end Chunks

/-- The per-connection session record (`RTMPSession`, unnamed/part_010 lines
26-85), restricted to the fields the registry and the publish/play handlers
read or write.  The GOP cache (`container/list` of `*RTMPPacket`) is the list
of cached packets in FIFO order; `gopCacheSize` is the Go `int64`
accumulator. -/
structure RTMPSession where
  id : Nat
  channel : String
  key : String
  stream_id : String
  isConnected : Bool
  isPublishing : Bool
  isPlaying : Bool
  isIdling : Bool
  isPause : Bool
  receive_audio : Bool
  receive_video : Bool
  publishStreamId : Nat
  playStreamId : Nat
  gopPlayNo : Bool
  gopPlayClear : Bool
  metaData : List Nat
  audioCodec : Nat
  videoCodec : Nat
  aacSequenceHeader : List Nat
  avcSequenceHeader : List Nat
  clock : Int
  rtmpGopCache : List Chunks.RTMPPacket
  gopCacheSize : Int
  gopCacheLimit : Int
  gopCacheDisabled : Bool
  deriving Repr, DecidableEq

/-- A session as `CreateRTMPSession` (unnamed/part_010 lines 93-147)
initialises it: role flags off, `receive_audio`/`receive_video` on, empty
cache, the default GOP cache limit (256 MiB). -/
def baseSession : RTMPSession :=
  { id := 0, channel := "", key := "", stream_id := "",
    isConnected := false, isPublishing := false, isPlaying := false,
    isIdling := false, isPause := false,
    receive_audio := true, receive_video := true,
    publishStreamId := 0, playStreamId := 0,
    gopPlayNo := false, gopPlayClear := false,
    metaData := [], audioCodec := 0, videoCodec := 0,
    aacSequenceHeader := [], avcSequenceHeader := [], clock := 0,
    rtmpGopCache := [], gopCacheSize := 0, gopCacheLimit := 268435456,
    gopCacheDisabled := false }

namespace Registry

/- The channel registry from `src/rtmp_server.go` (first variant, the one
with the per-IP limit and GOP-cache limit fields; lines 19-382).  The Go
`map[string]*RTMPChannel` is an association list, `map[uint64]bool` player
sets are lists of ids, and the `sessions` map is the list of session
records (ids unique in every reachable state). -/

structure RTMPChannel where
  channel : String
  key : String
  stream_id : String
  publisher : Nat
  is_publishing : Bool
  players : List Nat
  deriving Repr, DecidableEq

def lookupChannel : List (String × RTMPChannel) → String → Option RTMPChannel
  | [], _ => none
  | p :: rest, c => if p.1 == c then some p.2 else lookupChannel rest c

def insertChannel : List (String × RTMPChannel) → String → RTMPChannel →
    List (String × RTMPChannel)
  | [], c, ch => [(c, ch)]
  | p :: rest, c, ch =>
    if p.1 == c then (c, ch) :: rest else p :: insertChannel rest c ch

def removeChannel : List (String × RTMPChannel) → String →
    List (String × RTMPChannel)
  | [], _ => []
  | p :: rest, c =>
    if p.1 == c then removeChannel rest c else p :: removeChannel rest c

/-- `map[uint64]bool` insertion `players[id] = true`. -/
def addPlayerId (players : List Nat) (id : Nat) : List Nat :=
  if players.contains id then players else players ++ [id]

/-- `delete(players, id)`. -/
def removePlayerId (players : List Nat) (id : Nat) : List Nat :=
  players.filter (fun p => p != id)

/-- The whole-server state: the channel registry plus the session table
(`server.channels` and `server.sessions`). -/
structure ServerState where
  channels : List (String × RTMPChannel)
  sessions : List RTMPSession
  deriving Repr, DecidableEq

def findSession (st : ServerState) (sid : Nat) : Option RTMPSession :=
  st.sessions.find? (fun s => s.id == sid)

/-- Replace the session record with the given id. -/
def updateSession (st : ServerState) (s' : RTMPSession) : ServerState :=
  { st with sessions := st.sessions.map (fun t => if t.id == s'.id then s' else t) }

/-- `isPublishing` (rtmp_server.go lines 217-222). -/
def isPublishing (channels : List (String × RTMPChannel)) (channel : String) : Bool :=
  match lookupChannel channels channel with
  | some c => c.is_publishing
  | none => false

/-- `SetPublisher` (rtmp_server.go lines 240-266): refuses (false, registry
unchanged) when the channel exists and is publishing; otherwise creates or
updates the channel entry and returns true. -/
def SetPublisher (channels : List (String × RTMPChannel))
    (channel key stream_id : String) (sid : Nat) :
    Bool × List (String × RTMPChannel) :=
  match lookupChannel channels channel with
  | some c =>
    if c.is_publishing then (false, channels)
    else
      (true, insertChannel channels channel
        { c with key := key, stream_id := stream_id, is_publishing := true,
                 publisher := sid })
  | none =>
    (true, insertChannel channels channel
      { channel := channel, key := key, stream_id := stream_id,
        publisher := sid, is_publishing := true, players := [] })

/-- `RemovePublisher` (rtmp_server.go lines 268-292): clears the publisher
of the channel, turns every player of the channel back to idling, and drops
the channel entry when it has no players. -/
def RemovePublisher (st : ServerState) (channel : String) : ServerState :=
  match lookupChannel st.channels channel with
  | none => st
  | some c =>
    let c1 := { c with publisher := 0, is_publishing := false }
    let sessions' := st.sessions.map (fun s =>
      if c1.players.contains s.id then { s with isIdling := true, isPlaying := false }
      else s)
    let channels' := insertChannel st.channels channel c1
    let channels'' :=
      if c1.players.isEmpty then removeChannel channels' channel else channels'
    { channels := channels'', sessions := sessions' }

/-- `GetPlayers` (rtmp_server.go lines 316-336): the sessions that are in the
channel's player set and currently playing. -/
def GetPlayers (st : ServerState) (channel : String) : List RTMPSession :=
  match lookupChannel st.channels channel with
  | none => []
  | some c => st.sessions.filter (fun s => c.players.contains s.id && s.isPlaying)

/-- `GetIdlePlayers` (rtmp_server.go lines 294-314). -/
def GetIdlePlayers (st : ServerState) (channel : String) : List RTMPSession :=
  match lookupChannel st.channels channel with
  | none => []
  | some c => st.sessions.filter (fun s => c.players.contains s.id && s.isIdling)

/-- `AddPlayer` (rtmp_server.go lines 338-367).  Result: the returned
`(bool, error)` pair — `(s.isIdling, nil)` on success, `(false, "Invalid
key")` on key mismatch — together with the updated server state.
`subtle.ConstantTimeCompare(a, b) == 1` holds exactly when the byte strings
are equal, i.e. when the keys are equal as strings. -/
def AddPlayer (st : ServerState) (channel key : String) (sid : Nat) :
    (Bool × Option String) × ServerState :=
  let channels0 :=
    if (lookupChannel st.channels channel).isNone then
      insertChannel st.channels channel
        { channel := channel, key := key, stream_id := "", publisher := 0,
          is_publishing := false, players := [] }
    else st.channels
  match lookupChannel channels0 channel with
  | none => ((false, none), st)
  | some c =>
    if c.is_publishing then
      if key = c.key then
        let c1 := { c with players := addPlayerId c.players sid }
        let sessions' := st.sessions.map (fun s =>
          if s.id == sid then { s with isIdling := false } else s)
        ((false, none),
          { channels := insertChannel channels0 channel c1, sessions := sessions' })
      else
        ((false, some "Invalid key"), { st with channels := channels0 })
    else
      let c1 := { c with players := addPlayerId c.players sid }
      let sessions' := st.sessions.map (fun s =>
        if s.id == sid then { s with isIdling := true } else s)
      ((true, none),
        { channels := insertChannel channels0 channel c1, sessions := sessions' })

/-- `RemovePlayer` (rtmp_server.go lines 369-382). -/
def RemovePlayer (st : ServerState) (channel : String) (sid : Nat) : ServerState :=
  match lookupChannel st.channels channel with
  | none => st
  | some c =>
    let c1 := { c with players := removePlayerId c.players sid }
    let sessions' := st.sessions.map (fun s =>
      if s.id == sid then { s with isIdling := false, isPlaying := false } else s)
    let channels' := insertChannel st.channels channel c1
    let channels'' :=
      if !c1.is_publishing && c1.players.isEmpty then removeChannel channels' channel
      else channels'
    { channels := channels'', sessions := sessions' }

/-- `validateStreamIDString` (unnamed/part_016 lines 245-273 and
unnamed/part_015 lines 275-298): length bound plus the anchored character
class `[A-Za-z0-9_-]+`. -/
def validateStreamIDString (str : String) (maxLen : Nat) : Bool :=
  str.length ≤ maxLen && str.length > 0 &&
    str.toList.all (fun ch => ch.isAlphanum || ch = '_' || ch = '-')

/-- `HandlePublish` (unnamed/part_010 lines 580-636) as a transition on the
server state for the session `sid`.  `accepted`/`grantedStreamId` model the
outcome of the external policy check (coordinator request or HTTP callback);
`maxIdLength` is the configured `ID_MAX_LENGTH`.  The second component is
the `code` of the status message sent to the client, when any.  The result
of `SetPublisher` is discarded, as in the source.  `StartIdlePlayers`
(rtmp_publisher.go lines 12-54) promotes the channel's idle players with a
matching key; the cache replay it performs for them, and the `Kill()` of
mismatched players, do not touch any session's role flags and are modelled
by `StartPlayer` separately. -/
def HandlePublish (st : ServerState) (sid : Nat) (streamName : String)
    (packetStreamId : Nat) (accepted : Bool) (grantedStreamId : String)
    (maxIdLength : Nat) : ServerState × Option String :=
  match findSession st sid with
  | none => (st, none)
  | some s =>
    let key := (goSplit '?' streamName).getD 0 ""
    let s1 := { s with key := key }
    let st1 := updateSession st s1
    if key = "" || !s1.isConnected then (st1, none)
    else if !validateStreamIDString key maxIdLength then
      (st1, some "NetStream.Publish.BadName")
    else
      let s2 := { s1 with publishStreamId := packetStreamId }
      let st2 := updateSession st1 s2
      if s2.isPublishing then (st2, some "NetStream.Publish.BadConnection")
      else if isPublishing st2.channels s2.channel then
        (st2, some "NetStream.Publish.BadName")
      else if !accepted then (st2, some "NetStream.Publish.BadName")
      else
        let s3 := { s2 with isPublishing := true, stream_id := grantedStreamId }
        let st3 := updateSession st2 s3
        let st4 := { st3 with
          channels := (SetPublisher st3.channels s3.channel s3.key s3.stream_id s3.id).2 }
        let idleIds := (GetIdlePlayers st4 s3.channel).map (fun p => p.id)
        let st5 := { st4 with sessions := st4.sessions.map (fun p =>
          if idleIds.contains p.id && p.key == s3.key then
            { p with isPlaying := true, isIdling := false }
          else p) }
        (st5, some "NetStream.Publish.Start")

/-- `EndPublish` (rtmp_publisher.go lines 110-153) as a transition on the
server state: when the session is publishing, turn all current players of
its channel back to idling, remove the publisher from the registry, reset
the GOP cache and clear the flag. -/
def EndPublish (st : ServerState) (sid : Nat) : ServerState :=
  match findSession st sid with
  | none => st
  | some s =>
    if s.isPublishing then
      let playerIds := (GetPlayers st s.channel).map (fun p => p.id)
      let st1 := { st with sessions := st.sessions.map (fun p =>
        if playerIds.contains p.id then { p with isIdling := true, isPlaying := false }
        else p) }
      let st2 := RemovePublisher st1 s.channel
      updateSession st2 { s with isPublishing := false, rtmpGopCache := [] }
    else st

/-- The registry-touching operations reachable from the command handlers, as
a step alphabet for the single-publisher invariant.  `SetPublisher` is
invoked only inside `HandlePublish` and `RemovePublisher` only inside
`EndPublish` (their sole call sites in the sources), so these four
operations are the registry's mutation entry points. -/
inductive ServerOp where
  | publish (sid : Nat) (streamName : String) (packetStreamId : Nat)
      (accepted : Bool) (grantedStreamId : String) (maxIdLength : Nat)
  | endPublish (sid : Nat)
  | addPlayer (channel key : String) (sid : Nat)
  | removePlayer (channel : String) (sid : Nat)

def applyOp (st : ServerState) : ServerOp → ServerState
  | .publish sid streamName packetStreamId accepted granted maxLen =>
    (HandlePublish st sid streamName packetStreamId accepted granted maxLen).1
  | .endPublish sid => EndPublish st sid
  | .addPlayer channel key sid => (AddPlayer st channel key sid).2
  | .removePlayer channel sid => RemovePlayer st channel sid

/-- Number of sessions currently publishing on channel `c`. -/
def countPub (st : ServerState) (c : String) : Nat :=
  st.sessions.countP (fun s => s.isPublishing && s.channel == c)

/-- The single-publisher invariant: session ids are unique, each channel has
at most one publishing session, and a channel with a publishing session is
marked publishing in the registry. -/
def Inv (st : ServerState) : Prop :=
  (st.sessions.map (fun s => s.id)).Nodup ∧
  ∀ c : String, countPub st c ≤ 1 ∧
    (1 ≤ countPub st c → isPublishing st.channels c = true)

end Registry

namespace Part010

/- The media handlers of the publishing session, `src/unnamed/part_010`:
`HandleAudioPacket` (lines 794-847) and `HandleVideoPacket` (lines 851-908),
and the player-start path `StartPlayer` (rtmp_publisher.go lines 59-94) with
the `cache=no|clear` flag computation of `HandlePlay` (lines 646-650). -/

open Chunks

/-- The eviction loop
`for s.gopCacheSize > s.gopCacheLimit { ... Remove(Front) ... }`
(unnamed/part_010 lines 826-835): pops the front entry, subtracting its
`header.length` and then `RTMP_PACKET_BASE_SIZE` from the accounted size.
`Front()` on an empty list is a nil dereference (`none`). -/
def gopEvictLoop : List RTMPPacket → Int → Int → Option (List RTMPPacket × Int)
  | cache, size, limit =>
    if size > limit then
      match cache with
      | [] => none
      | x :: rest =>
        gopEvictLoop rest (size - (x.header.length : Int) - RTMP_PACKET_BASE_SIZE) limit
    else some (cache, size)

/-- The accounted size of the GOP cache: each entry contributes its declared
payload length plus the fixed `RTMP_PACKET_BASE_SIZE = 65` overhead. -/
def gopAccounted (cache : List RTMPPacket) : Int :=
  (cache.map (fun p => (p.header.length : Int) + RTMP_PACKET_BASE_SIZE)).sum

/-- The GOP cache accounting invariant of a session: the `gopCacheSize`
accumulator equals the accounted sum over the cached entries, and is within
the configured limit. -/
def GopInv (s : RTMPSession) : Prop :=
  s.gopCacheSize = gopAccounted s.rtmpGopCache ∧ s.gopCacheSize ≤ s.gopCacheLimit

/-- The fan-out predicate of `HandleAudioPacket` (unnamed/part_010 line 841):
`players[i].isPlaying && !players[i].isPause && players[i].receive_audio`. -/
def audioForwardPred (p : RTMPSession) : Bool :=
  p.isPlaying && !p.isPause && p.receive_audio

/-- The fan-out predicate of `HandleVideoPacket` (unnamed/part_010 line 902):
`players[i].isPlaying && !players[i].isPause && players[i].receive_video`. -/
def videoForwardPred (p : RTMPSession) : Bool :=
  p.isPlaying && !p.isPause && p.receive_video

/-- The caching step shared by `HandleAudioPacket` (unnamed/part_010 lines
822-836) and `HandleVideoPacket` (lines 883-897): unless the packet is a
sequence header or caching is disabled, `PushBack` the copy, add
`length + RTMP_PACKET_BASE_SIZE` to the accounted size and run the eviction
loop. -/
def gopCachePush (s2 : RTMPSession) (cachePacket : RTMPPacket) (isHeader : Bool) :
    Option RTMPSession :=
  if !isHeader && !s2.gopCacheDisabled then
    match gopEvictLoop (s2.rtmpGopCache ++ [cachePacket])
        (s2.gopCacheSize + (cachePacket.header.length : Int) + RTMP_PACKET_BASE_SIZE)
        s2.gopCacheLimit with
    | none => none
    | some r => some { s2 with rtmpGopCache := r.1, gopCacheSize := r.2 }
  else some s2

/-- `HandleAudioPacket` (unnamed/part_010 lines 794-847) on the publisher
session `s`, the snapshot `players` returned by `GetPlayers(s.channel)` and
the packet payload.  Returns the updated publisher session and the ids of
the players the copy was sent to (`SendCachePacket`).  `payload[0]` (and,
for AAC/Opus, `payload[1]`) out of range is a panic (`none`). -/
def HandleAudioPacket (s : RTMPSession) (players : List RTMPSession)
    (payload : List Nat) : Option (RTMPSession × List Nat) :=
  if !s.isPublishing then some (s, [])
  else
    match payload.head? with
    | none => none
    | some p0 =>
      let sound_format := (p0 >>> 4) &&& 0x0f
      let s1 := if s.audioCodec == 0 then { s with audioCodec := sound_format } else s
      match (if sound_format == 10 || sound_format == 13 then
          (payload.get? 1).map (fun b1 => b1 == 0)
        else some false : Option Bool) with
      | none => none
      | some isHeader =>
        let s2 := if isHeader then { s1 with aacSequenceHeader := payload } else s1
        let cachePacket : RTMPPacket :=
          { createBlankRTMPPacket with
            header := { createBlankRTMPPacket.header with
              fmt := RTMP_CHUNK_TYPE_0, cid := RTMP_CHANNEL_AUDIO,
              packet_type := RTMP_TYPE_AUDIO,
              length := payload.length % 2 ^ 32, timestamp := s.clock },
            payload := payload }
        match gopCachePush s2 cachePacket isHeader with
        | none => none
        | some s3 =>
          some (s3, (players.filter audioForwardPred).map (fun p => p.id))

/-- `HandleVideoPacket` (unnamed/part_010 lines 851-908).  A sequence header
(`codec_id ∈ {7, 12}`, keyframe, `payload[1] = 0`) replaces
`avcSequenceHeader` and resets the GOP cache; other packets are cached with
the same byte-budget eviction as audio; the copy goes to the players passing
`videoForwardPred`. -/
def HandleVideoPacket (s : RTMPSession) (players : List RTMPSession)
    (payload : List Nat) : Option (RTMPSession × List Nat) :=
  if !s.isPublishing then some (s, [])
  else
    match payload.head? with
    | none => none
    | some p0 =>
      let frame_type := (p0 >>> 4) &&& 0x0f
      let codec_id := p0 &&& 0x0f
      match (if (codec_id == 7 || codec_id == 12) && frame_type == 1 then
          (payload.get? 1).map (fun b1 => b1 == 0)
        else some false : Option Bool) with
      | none => none
      | some isHeader =>
        let s1 :=
          if isHeader then
            { s with avcSequenceHeader := payload, rtmpGopCache := [], gopCacheSize := 0 }
          else s
        let s2 := if s1.videoCodec == 0 then { s1 with videoCodec := codec_id } else s1
        let cachePacket : RTMPPacket :=
          { createBlankRTMPPacket with
            header := { createBlankRTMPPacket.header with
              fmt := RTMP_CHUNK_TYPE_0, cid := RTMP_CHANNEL_VIDEO,
              packet_type := RTMP_TYPE_VIDEO,
              length := payload.length % 2 ^ 32, timestamp := s.clock },
            payload := payload }
        match gopCachePush s2 cachePacket isHeader with
        | none => none
        | some s3 =>
          some (s3, (players.filter videoForwardPred).map (fun p => p.id))

/-- The `cache` play-parameter computation of `HandlePlay` (unnamed/part_010
lines 642-650): split the stream name on `?`, and when a query part exists
set `gopPlayNo := (params["cache"] == "no")` and
`gopPlayClear := (params["cache"] == "clear")` from `getRTMPParamsSimple`. -/
def handlePlayGopFlags (streamName : String) : Bool × Bool :=
  let sKeyPathSplit := goSplit '?' streamName
  if sKeyPathSplit.length > 1 then
    let playParams := Part015.getRTMPParamsSimple (sKeyPathSplit.getD 1 "")
    (Part015.lookupStr playParams "cache" == "no",
     Part015.lookupStr playParams "cache" == "clear")
  else (false, false)

/-- `StartPlayer` (rtmp_publisher.go lines 59-94) on publisher `s` and the
joining `player`.  Returns the updated publisher, the updated player, and
the cached packets replayed to the player (the metadata and codec-header
messages, which are always sent, are not listed).  The replay loop runs
exactly when `!player.gopPlayNo && len(cache) > 0`; afterwards a
`gopPlayClear` player empties the cache and disables caching. -/
def StartPlayer (s player : RTMPSession) :
    RTMPSession × RTMPSession × List RTMPPacket :=
  if !s.isPublishing then
    (s, { player with isPlaying := false, isIdling := true }, [])
  else
    let sentCache :=
      if !player.gopPlayNo && s.rtmpGopCache.length > 0 then s.rtmpGopCache else []
    let player' := { player with isPlaying := true, isIdling := false }
    let s' :=
      if player'.gopPlayClear then
        { s with rtmpGopCache := [], gopCacheSize := 0, gopCacheDisabled := true }
      else s
    (s', player', sentCache)

end Part010

namespace SessionGo

/- The variant media handlers of `src/rtmp_session.go` (lines 668-763).
This variant bounds the GOP cache by entry count (`RTMP_GOP_CACHE_SIZE`, a
constant defined outside the provided sources and threaded here as the
`gopCacheMax` argument) and fans out with the predicate
`players[i].isPlaying && !players[i].isPause && !players[i].receive_audio`
— note the negated `receive_audio`, in the video handler too. -/

open Chunks

/-- Fan-out predicate at rtmp_session.go line 705 (audio) and — identically,
still on `receive_audio` — line 757 (video). -/
def forwardPred (p : RTMPSession) : Bool :=
  p.isPlaying && !p.isPause && !p.receive_audio

/-- `HandleAudioPacket` (rtmp_session.go lines 668-711). -/
def HandleAudioPacket (gopCacheMax : Nat) (s : RTMPSession)
    (players : List RTMPSession) (payload : List Nat) :
    Option (RTMPSession × List Nat) :=
  if !s.isPublishing then some (s, [])
  else
    match payload.head? with
    | none => none
    | some p0 =>
      let sound_format := (p0 >>> 4) &&& 0x0f
      let s1 := if s.audioCodec == 0 then { s with audioCodec := sound_format } else s
      match (if sound_format == 10 || sound_format == 13 then
          (payload.get? 1).map (fun b1 => b1 == 0)
        else some false : Option Bool) with
      | none => none
      | some isHeader =>
        let s2 := if isHeader then { s1 with aacSequenceHeader := payload } else s1
        let cachePacket : RTMPPacket :=
          { createBlankRTMPPacket with
            header := { createBlankRTMPPacket.header with
              fmt := RTMP_CHUNK_TYPE_0, cid := RTMP_CHANNEL_AUDIO,
              packet_type := RTMP_TYPE_AUDIO,
              length := payload.length % 2 ^ 32, timestamp := s.clock },
            payload := payload }
        match (if s2.aacSequenceHeader.length == 0 then some true
            else (payload.get? 1).map (fun b1 => b1 != 0) : Option Bool) with
        | none => none
        | some doCache =>
          let s3 :=
            if doCache then
              let cache1 := s2.rtmpGopCache ++ [cachePacket]
              { s2 with rtmpGopCache :=
                  if cache1.length > gopCacheMax then cache1.drop 1 else cache1 }
            else s2
          some (s3, (players.filter forwardPred).map (fun p => p.id))

/-- `HandleVideoPacket` (rtmp_session.go lines 713-763).  The fan-out filter
(line 757) tests `receive_audio`, not `receive_video`. -/
def HandleVideoPacket (gopCacheMax : Nat) (s : RTMPSession)
    (players : List RTMPSession) (payload : List Nat) :
    Option (RTMPSession × List Nat) :=
  if !s.isPublishing then some (s, [])
  else
    match payload.head? with
    | none => none
    | some p0 =>
      let frame_type := (p0 >>> 4) &&& 0x0f
      let codec_id := p0 &&& 0x0f
      match (if (codec_id == 7 || codec_id == 12) && frame_type == 1 then
          (payload.get? 1).map (fun b1 => b1 == 0)
        else some false : Option Bool) with
      | none => none
      | some isHeader =>
        let s1 :=
          if isHeader then { s with avcSequenceHeader := payload, rtmpGopCache := [] }
          else s
        let s2 := if s1.videoCodec == 0 then { s1 with videoCodec := codec_id } else s1
        let cachePacket : RTMPPacket :=
          { createBlankRTMPPacket with
            header := { createBlankRTMPPacket.header with
              fmt := RTMP_CHUNK_TYPE_0, cid := RTMP_CHANNEL_VIDEO,
              packet_type := RTMP_TYPE_VIDEO,
              length := payload.length % 2 ^ 32, timestamp := s.clock },
            payload := payload }
        match (if codec_id == 7 || codec_id == 12 then
            (if frame_type != 1 then some true
             else (payload.get? 1).map (fun b1 => b1 != 0))
          else some false : Option Bool) with
        | none => none
        | some doCache =>
          let s3 :=
            if doCache then
              let cache1 := s2.rtmpGopCache ++ [cachePacket]
              { s2 with rtmpGopCache :=
                  if cache1.length > gopCacheMax then cache1.drop 1 else cache1 }
            else s2
          some (s3, (players.filter forwardPred).map (fun p => p.id))

end SessionGo

namespace SessionUtils

/-- The payload built by `SendPingRequest` (rtmp_session_utils.go lines
105-130): event type `0x0006` as two big-endian bytes, then the 4-byte
big-endian milliseconds since the session's connect time
(`currentTimestamp = now - s.connectTime`, non-negative). -/
def sendPingRequestPayload (currentTimestamp : Nat) : List Nat :=
  [0, 6,
   byteOf (currentTimestamp >>> 24) &&& 0xff,
   byteOf (currentTimestamp >>> 16) &&& 0xff,
   byteOf (currentTimestamp >>> 8) &&& 0xff,
   byteOf currentTimestamp &&& 0xff]

end SessionUtils

/-! Theorems. -/

/-- C2.  The AMF0 round-trip fails on the code: `amf0EncodeOne` encodes a
`LongString` with `amf0EncodeString` (2-byte length), while `ReadOne`
decodes marker `0x0C` with `ReadLongString` (4-byte length), so decoding the
5-byte encoding of the long string "ab" misreads the length as `0x00026162`
and panics reading past the buffer — instead of returning the value with the
cursor past its encoding.  Moreover `ReadOne` merely `Skip`s the 2-byte
Reference index (decoding `Reference 5` to `Reference 0`), and the object
decoder never consumes the type-9 terminator (for the empty object the
cursor stops at position 3 of the 4-byte encoding). -/
theorem amf0_roundtrip_fails_on_longString :
    Amf0.amf0EncodeOne (.longString [97, 98]) = [0x0C, 0x00, 0x02, 97, 98] ∧
    Amf0.ReadOneFromBytes 1000 [0x0C, 0x00, 0x02, 97, 98] = none ∧
    Amf0.amf0EncodeOne (.ref 5) = [0x07, 0x00, 0x05] ∧
    Amf0.ReadOneFromBytes 1000 [0x07, 0x00, 0x05] =
      some (.ref 0, { buffer := [0x07, 0x00, 0x05], pos := 3 }) ∧
    Amf0.AMF0Value.ref 0 ≠ Amf0.AMF0Value.ref 5 ∧
    Amf0.amf0EncodeOne (.object []) = [0x03, 0x00, 0x00, 0x09] ∧
    Amf0.ReadOneFromBytes 4 [0x03, 0x00, 0x00, 0x09] =
      some (.object [], { buffer := [0x03, 0x00, 0x00, 0x09], pos := 3 }) := by
  refine ⟨?_, ?_, ?_, ?_, ?_, ?_, ?_⟩
  · simp [Amf0.amf0EncodeOne, Amf0.amf0EncodeString, Amf0.AMF0_TYPE_LONG_STRING,
      putUint16BE, byteOf]
  · norm_num [Amf0.ReadOneFromBytes, Amf0.ReadOne, Amf0.AMFDecodingStream.Read,
      Amf0.AMFDecodingStream.ReadLongString, getUint32BE,
      Amf0.AMF0_TYPE_NUMBER, Amf0.AMF0_TYPE_BOOL, Amf0.AMF0_TYPE_DATE,
      Amf0.AMF0_TYPE_STRING, Amf0.AMF0_TYPE_XML_DOC, Amf0.AMF0_TYPE_LONG_STRING,
      Nat.shiftLeft_eq]
    exact fun h => absurd h (by decide)
  · simp [Amf0.amf0EncodeOne, Amf0.amf0EncodeRef, Amf0.AMF0_TYPE_REF,
      putUint16BE, byteOf]
  · norm_num [Amf0.ReadOneFromBytes, Amf0.ReadOne, Amf0.AMFDecodingStream.Read,
      Amf0.AMFDecodingStream.Skip,
      Amf0.AMF0_TYPE_NUMBER, Amf0.AMF0_TYPE_BOOL, Amf0.AMF0_TYPE_DATE,
      Amf0.AMF0_TYPE_STRING, Amf0.AMF0_TYPE_XML_DOC, Amf0.AMF0_TYPE_LONG_STRING,
      Amf0.AMF0_TYPE_OBJECT, Amf0.AMF0_TYPE_TYPED_OBJ, Amf0.AMF0_TYPE_REF]
  · intro h
    simp at h
  · simp [Amf0.amf0EncodeOne, Amf0.amf0EncodeObject, Amf0.amf0EncodeFields,
      Amf0.amf0EncodeString, Amf0.AMF0_TYPE_OBJECT, Amf0.AMF0_OBJECT_TERM_CODE,
      putUint16BE, byteOf]
  · norm_num [Amf0.ReadOneFromBytes, Amf0.ReadOne, Amf0.ReadObjectLoop,
      Amf0.AMFDecodingStream.Read, Amf0.AMFDecodingStream.Look,
      Amf0.AMFDecodingStream.IsEnded, Amf0.AMFDecodingStream.ReadString, getUint16BE,
      Amf0.AMF0_TYPE_NUMBER, Amf0.AMF0_TYPE_BOOL, Amf0.AMF0_TYPE_DATE,
      Amf0.AMF0_TYPE_STRING, Amf0.AMF0_TYPE_XML_DOC, Amf0.AMF0_TYPE_LONG_STRING,
      Amf0.AMF0_TYPE_OBJECT, Amf0.AMF0_OBJECT_TERM_CODE]

/-- C4.  The channel-id escape diverges from the claimed formulas: for a
3-byte basic header with following bytes `b1 = b2 = 1` the decoder
(`readChunkCid`, the `switch` of `ReadChunk`) yields `(64 + 1 + 1) << 8 =
16896`, not `64 + 1 + (1 << 8) = 321`; and for `cid = 319` the encoder
`rtmpChunkBasicHeaderCreate` emits third byte `byte(319) = 63` (since Go
parses `cid-64>>8` as `cid - (64>>8)`), not `(319 - 64) >> 8 = 0`. -/
theorem basic_header_cid_escape_diverges :
    Chunks.readChunkCid 3 1 [1, 1, 1] = 16896 ∧
    64 + 1 + (1 <<< 8) = 321 ∧ (16896 : Nat) ≠ 321 ∧
    Chunks.rtmpChunkBasicHeaderCreate 0 319 = [1, 255, 63] ∧
    (319 - 64) >>> 8 = 0 ∧ (63 : Nat) ≠ 0 := by
  refine ⟨by decide, by decide, by decide, by decide, by decide, by decide⟩

/-- C9.  The AMF3 UI29 codec diverges from the claimed format and does not
round-trip: `amf3encUI29 128` emits `[0x00, 0x81]` — the low value bits
first and the continuation bit on the *terminal* byte, instead of the
claimed `[0x81, 0x00]` — and `amf3decUI29` (whose loop exit test
`len < 5 || b > 0x7F` is satisfied on the very first iteration) consumes
exactly one byte of it and returns 0, not 128.  Values below `0x80` survive
the trip. -/
theorem ui29_roundtrip_fails_at_128 :
    Amf3.amf3encUI29 128 = [0x00, 0x81] ∧
    Amf3.amf3decUI29 [0x00, 0x81] = some (0, [0x81]) ∧
    (0 : Nat) ≠ 128 ∧
    Amf3.amf3encUI29 128 ≠ [0x81, 0x00] ∧
    Amf3.amf3decUI29 (Amf3.amf3encUI29 127) = some (127, []) := by
  refine ⟨by decide, by decide, by decide, by decide, by decide⟩

/-- C8.  The keepalive constants of `src/rtmp_utils.go` are the *swap* of
the claimed values: `RTMP_PING_TIME = 60000` and `RTMP_PING_TIMEOUT =
30000`, so the read deadline (30 s) expires before the next ping (60 s).
The sibling variant `src/unnamed/part_015` carries the claimed 30000/60000.
The ping payload itself is as claimed: subtype `0x0006` in two big-endian
bytes followed by the 4-byte big-endian milliseconds since connect
(`sendPingRequestPayload 5000` ends in `0x00001388`). -/
theorem ping_constants_swapped_in_rtmp_utils :
    RtmpUtils.RTMP_PING_TIME = 60000 ∧
    RtmpUtils.RTMP_PING_TIMEOUT = 30000 ∧
    Part015.RTMP_PING_TIME = 30000 ∧
    Part015.RTMP_PING_TIMEOUT = 60000 ∧
    RtmpUtils.RTMP_PING_TIME ≠ 30000 ∧
    RtmpUtils.RTMP_PING_TIMEOUT < RtmpUtils.RTMP_PING_TIME ∧
    SessionUtils.sendPingRequestPayload 5000 = [0, 6, 0, 0, 0x13, 0x88] := by
  refine ⟨by decide, by decide, by decide, by decide, by decide, by decide, by decide⟩

/-- C5.  In the `rtmp_session.go` variant the audio fan-out filter (line
705) is `isPlaying && !isPause && !receive_audio` — the `receive_audio` test
is inverted — and the video filter (line 757) also tests `receive_audio`
rather than `receive_video`.  Concretely: of two playing, unpaused players,
the one with `receive_audio = false` (id 1) receives the audio copy and the
one with `receive_audio = true` (id 2) does not; the same holds for a video
packet, regardless of `receive_video`. -/
theorem sessionGo_fanout_inverts_receive_flags :
    (SessionGo.HandleAudioPacket 0
      { baseSession with isPublishing := true, aacSequenceHeader := [1] }
      [{ baseSession with id := 1, isPlaying := true, receive_audio := false },
       { baseSession with id := 2, isPlaying := true, receive_audio := true }]
      [0x20, 0]).map (fun r => r.2) = some [1] ∧
    (SessionGo.HandleVideoPacket 0
      { baseSession with isPublishing := true }
      [{ baseSession with
           id := 1, isPlaying := true, receive_audio := false, receive_video := false },
       { baseSession with
           id := 2, isPlaying := true, receive_audio := true, receive_video := true }]
      [0x21, 0]).map (fun r => r.2) = some [1] := by
  exact ⟨by decide, by decide⟩

/-- C7.  `cache=no` is never honoured: `getRTMPParamsSimple` stores
`result[keyVal[1]]` — the lookup of the *value* text in the still-empty
result map, i.e. `""` — instead of `keyVal[1]`, so the parameter map of
`"cache=no"` is `[("cache", "")]`; `HandlePlay` therefore computes
`gopPlayNo = ("" == "no") = false`, and `StartPlayer` replays the whole
pre-join GOP cache (here one cached packet with payload `[1, 2, 3]`) to the
player that asked for `cache=no`. -/
theorem cache_no_param_not_honored :
    Part015.getRTMPParamsSimple "cache=no" = [("cache", "")] ∧
    Part010.handlePlayGopFlags "key1?cache=no" = (false, false) ∧
    (Part010.StartPlayer
      { baseSession with
          isPublishing := true,
          rtmpGopCache := [{ Chunks.createBlankRTMPPacket with payload := [1, 2, 3] }] }
      { baseSession with
          id := 7,
          gopPlayNo := (Part010.handlePlayGopFlags "key1?cache=no").1 }).2.2 =
      [{ Chunks.createBlankRTMPPacket with payload := [1, 2, 3] }] := by
  refine ⟨by decide, by decide, by decide⟩

/-- C10.  `AddPlayer` on a channel that currently has a publisher and a
mismatching key fails atomically: it returns `(false, "Invalid key")` and
the entire server state — channels map, channel entry, player set and every
session record (in particular the caller's `isIdling`/`isPlaying` flags) —
is exactly the state before the call. -/
theorem addPlayer_key_mismatch_is_atomic :
    ∀ (st : Registry.ServerState) (channel key : String) (sid : Nat)
      (c : Registry.RTMPChannel),
      Registry.lookupChannel st.channels channel = some c →
      c.is_publishing = true →
      key ≠ c.key →
      Registry.AddPlayer st channel key sid = ((false, some "Invalid key"), st) := by
  intro st channel key sid c hlook hpub hkey
  unfold Registry.AddPlayer
  simp [hlook, hpub, hkey]

/-- Witness for `addPlayer_key_mismatch_is_atomic` at a concrete state. -/
theorem addPlayer_key_mismatch_is_atomic_witness :
    Registry.AddPlayer
      { channels := [("ch",
          { channel := "ch", key := "K", stream_id := "s1",
            publisher := 1, is_publishing := true, players := [1] })],
        sessions := [{ baseSession with id := 9 }] }
      "ch" "K2" 9 =
    ((false, some "Invalid key"),
      { channels := [("ch",
          { channel := "ch", key := "K", stream_id := "s1",
            publisher := 1, is_publishing := true, players := [1] })],
        sessions := [{ baseSession with id := 9 }] }) :=
  addPlayer_key_mismatch_is_atomic _ "ch" "K2" 9
    { channel := "ch", key := "K", stream_id := "s1",
      publisher := 1, is_publishing := true, players := [1] }
    (by decide) (by decide) (by decide)

theorem gopAccounted_nil : Part010.gopAccounted [] = 0 := by
  simp [Part010.gopAccounted]

theorem gopAccounted_cons (x : Chunks.RTMPPacket) (l : List Chunks.RTMPPacket) :
    Part010.gopAccounted (x :: l) =
      ((x.header.length : Int) + Chunks.RTMP_PACKET_BASE_SIZE) + Part010.gopAccounted l := by
  simp [Part010.gopAccounted]

theorem gopAccounted_append (l1 l2 : List Chunks.RTMPPacket) :
    Part010.gopAccounted (l1 ++ l2) = Part010.gopAccounted l1 + Part010.gopAccounted l2 := by
  simp [Part010.gopAccounted]

theorem gopAccounted_nonneg (l : List Chunks.RTMPPacket) : 0 ≤ Part010.gopAccounted l := by
  induction l with
  | nil => simp [Part010.gopAccounted]
  | cons x rest ih =>
    rw [gopAccounted_cons]
    have h1 : (0 : Int) ≤ (x.header.length : Int) := Int.ofNat_nonneg _
    have h2 : (Chunks.RTMP_PACKET_BASE_SIZE : Int) = 65 := by decide
    omega

/-- The eviction loop terminates without touching a nil `Front()`, and
restores `size = accounted sum ≤ limit`, whenever it starts from a correctly
accounted cache and a non-negative limit. -/
theorem gopEvictLoop_spec :
    ∀ (cache : List Chunks.RTMPPacket) (size limit : Int),
      size = Part010.gopAccounted cache → 0 ≤ limit →
      ∃ cache' size', Part010.gopEvictLoop cache size limit = some (cache', size') ∧
        size' = Part010.gopAccounted cache' ∧ size' ≤ limit := by
  intro cache
  induction cache with
  | nil =>
    intro size limit hs hl
    refine ⟨[], size, ?_, hs, ?_⟩
    · unfold Part010.gopEvictLoop
      have hng : ¬ size > limit := by rw [hs, gopAccounted_nil]; omega
      simp [hng]
    · rw [hs, gopAccounted_nil]; exact hl
  | cons x rest ih =>
    intro size limit hs hl
    by_cases hgt : size > limit
    · have hs' : size - (x.header.length : Int) - Chunks.RTMP_PACKET_BASE_SIZE =
          Part010.gopAccounted rest := by
        rw [hs, gopAccounted_cons]; omega
      obtain ⟨c', s', heq, haccr, hle⟩ := ih _ limit hs' hl
      refine ⟨c', s', ?_, haccr, hle⟩
      rw [Part010.gopEvictLoop]
      simp only [hgt, if_true, gt_iff_lt]
      simpa using heq
    · refine ⟨x :: rest, size, ?_, hs, by omega⟩
      unfold Part010.gopEvictLoop
      simp [hgt]

/-- The shared caching step preserves the accounting invariant and the
limit. -/
theorem gopCachePush_spec (s2 : RTMPSession) (pkt : Chunks.RTMPPacket)
    (isHeader : Bool) (s3 : RTMPSession)
    (hinv : Part010.GopInv s2) (hlim : 0 ≤ s2.gopCacheLimit)
    (h : Part010.gopCachePush s2 pkt isHeader = some s3) :
    Part010.GopInv s3 ∧ s3.gopCacheLimit = s2.gopCacheLimit := by
  obtain ⟨hacc, hbound⟩ := hinv
  unfold Part010.gopCachePush at h
  split at h
  · obtain ⟨c', sz', heq, haccr, hle⟩ :=
      gopEvictLoop_spec (s2.rtmpGopCache ++ [pkt])
        (s2.gopCacheSize + (pkt.header.length : Int) + Chunks.RTMP_PACKET_BASE_SIZE)
        s2.gopCacheLimit
        (by rw [gopAccounted_append, gopAccounted_cons, gopAccounted_nil, hacc]; ring)
        hlim
    rw [heq] at h
    injection h with h1
    subst h1
    exact ⟨⟨haccr, hle⟩, rfl⟩
  · injection h with h1
    subst h1
    exact ⟨⟨hacc, hbound⟩, rfl⟩

theorem gop_audio_case :
    ∀ (s : RTMPSession) (players : List RTMPSession) (payload : List Nat)
      (s' : RTMPSession) (sent : List Nat),
      Part010.GopInv s → 0 ≤ s.gopCacheLimit →
      Part010.HandleAudioPacket s players payload = some (s', sent) →
      Part010.GopInv s' ∧ s'.gopCacheLimit = s.gopCacheLimit := by
  intro s players payload s' sent hinv hlim h
  obtain ⟨hacc, hbound⟩ := hinv
  unfold Part010.HandleAudioPacket at h
  simp only [] at h
  repeat' split at h
  all_goals try exact Option.noConfusion h
  all_goals (injection h with h1; injection h1 with h2 h3; subst h2)
  · exact ⟨⟨hacc, hbound⟩, rfl⟩
  all_goals (
    rename_i s3 heqm
    obtain ⟨⟨ha, hb⟩, hc⟩ := gopCachePush_spec _ _ _ _
      (by
        constructor
        · repeat' split
          all_goals simpa using hacc
        · repeat' split
          all_goals simpa using hbound)
      (by
        repeat' split
        all_goals simpa using hlim)
      heqm
    refine ⟨⟨ha, hb⟩, ?_⟩
    rw [hc]
    repeat' split
    all_goals rfl)

theorem gop_video_case :
    ∀ (s : RTMPSession) (players : List RTMPSession) (payload : List Nat)
      (s' : RTMPSession) (sent : List Nat),
      Part010.GopInv s → 0 ≤ s.gopCacheLimit →
      Part010.HandleVideoPacket s players payload = some (s', sent) →
      Part010.GopInv s' ∧ s'.gopCacheLimit = s.gopCacheLimit := by
  intro s players payload s' sent hinv hlim h
  obtain ⟨hacc, hbound⟩ := hinv
  unfold Part010.HandleVideoPacket at h
  simp only [] at h
  repeat' split at h
  all_goals try exact Option.noConfusion h
  all_goals (injection h with h1; injection h1 with h2 h3; subst h2)
  · exact ⟨⟨hacc, hbound⟩, rfl⟩
  all_goals (
    rename_i s3 heqm
    obtain ⟨⟨ha, hb⟩, hc⟩ := gopCachePush_spec _ _ _ _
      (by
        constructor
        · repeat' split
          all_goals first
            | simpa using hacc
            | simp [Part010.gopAccounted]
        · repeat' split
          all_goals first
            | simpa using hbound
            | simpa using hlim)
      (by
        repeat' split
        all_goals simpa using hlim)
      heqm
    refine ⟨⟨ha, hb⟩, ?_⟩
    rw [hc]
    repeat' split
    all_goals rfl)

/-- C6.  After every `HandleAudioPacket` or `HandleVideoPacket` of a
publishing session whose GOP accounting was correct and whose configured
limit is non-negative (the server always configures a non-negative limit),
the accounted size still equals the sum of `payload_length + 65` over the
cached entries, is at most `gopCacheLimit`, and is never negative; oldest
entries are evicted from the front by the loop until the bound holds
(`gopEvictLoop_spec`). -/
theorem gop_cache_bound_invariant :
    ∀ (s : RTMPSession) (players : List RTMPSession) (payload : List Nat)
      (s' : RTMPSession) (sent : List Nat),
      Part010.GopInv s → 0 ≤ s.gopCacheLimit →
      (Part010.HandleAudioPacket s players payload = some (s', sent) ∨
       Part010.HandleVideoPacket s players payload = some (s', sent)) →
      Part010.GopInv s' ∧ 0 ≤ s'.gopCacheSize ∧
        s'.gopCacheSize ≤ s'.gopCacheLimit ∧ s'.gopCacheLimit = s.gopCacheLimit := by
  intro s players payload s' sent hinv hlim hcase
  have key : Part010.GopInv s' ∧ s'.gopCacheLimit = s.gopCacheLimit := by
    rcases hcase with h | h
    · exact gop_audio_case s players payload s' sent hinv hlim h
    · exact gop_video_case s players payload s' sent hinv hlim h
  obtain ⟨⟨ha, hb⟩, hc⟩ := key
  refine ⟨⟨ha, hb⟩, ?_, hb, hc⟩
  rw [ha]
  exact gopAccounted_nonneg _

/-- Witness for `gop_cache_bound_invariant`: a fresh publisher caching one
two-byte audio packet accounts `2 + 65 = 67` bytes, within the default
limit. -/
theorem gop_cache_bound_invariant_witness :
    Part010.GopInv
      { baseSession with
          isPublishing := true,
          audioCodec := 2,
          rtmpGopCache := [{ Chunks.createBlankRTMPPacket with
            header := { Chunks.createBlankRTMPPacket.header with
              fmt := 0, cid := 4, packet_type := 8, length := 2 },
            payload := [0x20, 0] }],
          gopCacheSize := 67 } ∧
    (0 : Int) ≤ 67 ∧ (67 : Int) ≤ 268435456 ∧
      (268435456 : Int) = ({ baseSession with isPublishing := true } : RTMPSession).gopCacheLimit :=
  gop_cache_bound_invariant { baseSession with isPublishing := true } [] [0x20, 0]
    { baseSession with
        isPublishing := true,
        audioCodec := 2,
        rtmpGopCache := [{ Chunks.createBlankRTMPPacket with
          header := { Chunks.createBlankRTMPPacket.header with
            fmt := 0, cid := 4, packet_type := 8, length := 2 },
          payload := [0x20, 0] }],
        gopCacheSize := 67 } []
    (by constructor <;> decide) (by decide) (Or.inl (by decide))

section CountPLemmas

theorem countP_split (l : List RTMPSession) (p q : RTMPSession → Bool) :
    l.countP p =
      l.countP (fun a => p a && q a) + l.countP (fun a => p a && !q a) := by
  induction l with
  | nil => simp
  | cons x rest ih =>
    simp only [List.countP_cons, ih]
    cases hp : p x <;> cases hq : q x <;> simp [hp, hq] <;> omega

theorem countP_map_ite (l : List RTMPSession) (sid : Nat) (v : RTMPSession)
    (p : RTMPSession → Bool) :
    (l.map (fun t => if t.id == sid then v else t)).countP p =
      l.countP (fun t => (t.id == sid) && p v) +
        l.countP (fun t => !(t.id == sid) && p t) := by
  induction l with
  | nil => simp
  | cons x rest ih =>
    simp only [List.map_cons, List.countP_cons, ih]
    by_cases hx : x.id = sid
    · have hxb : (x.id == sid) = true := by simp [hx]
      simp only [hxb, if_true, Bool.true_and, Bool.not_true, Bool.false_and]
      cases hp : p v <;> simp <;> omega
    · have hxb : (x.id == sid) = false := by simp [hx]
      simp only [hxb, if_false, Bool.false_and, Bool.not_false, Bool.true_and]
      cases hp : p x <;> simp [hp] <;> omega

theorem countP_map_eq_of (l : List RTMPSession) (f : RTMPSession → RTMPSession)
    (p q : RTMPSession → Bool) (h : ∀ a, p (f a) = q a) :
    (l.map f).countP p = l.countP q := by
  induction l with
  | nil => simp
  | cons x rest ih =>
    simp only [List.map_cons, List.countP_cons, ih, h]

theorem countP_id_le_one (l : List RTMPSession) (sid : Nat)
    (hnd : (l.map (fun s => s.id)).Nodup) :
    l.countP (fun t => t.id == sid) ≤ 1 := by
  induction l with
  | nil => simp
  | cons x rest ih =>
    simp only [List.map_cons, List.nodup_cons] at hnd
    obtain ⟨hx, hrest⟩ := hnd
    simp only [List.countP_cons]
    by_cases hxs : x.id = sid
    · have hz : rest.countP (fun t => t.id == sid) = 0 := by
        rw [List.countP_eq_zero]
        intro t ht
        simp only [beq_iff_eq]
        intro he
        apply hx
        rw [hxs, ← he]
        exact List.mem_map_of_mem _ ht
      simp [hxs, hz]
    · have hb : (x.id == sid) = false := by simp [hxs]
      simp [hb]
      exact ih hrest

theorem ids_map_eq_of (l : List RTMPSession) (f : RTMPSession → RTMPSession)
    (h : ∀ a, (f a).id = a.id) :
    (l.map f).map (fun s => s.id) = l.map (fun s => s.id) := by
  induction l with
  | nil => simp
  | cons x rest ih => simp [h, ih]

end CountPLemmas

section RegistryLemmas

theorem lookup_insertChannel_self (chs : List (String × Registry.RTMPChannel))
    (c : String) (ch : Registry.RTMPChannel) :
    Registry.lookupChannel (Registry.insertChannel chs c ch) c = some ch := by
  induction chs with
  | nil => simp [Registry.insertChannel, Registry.lookupChannel]
  | cons x rest ih =>
    by_cases hx : x.1 = c
    · simp [Registry.insertChannel, Registry.lookupChannel, hx]
    · have hb : (x.1 == c) = false := by simp [hx]
      simp only [Registry.insertChannel, hb, if_false, Registry.lookupChannel]
      exact ih

theorem lookup_insertChannel_ne (chs : List (String × Registry.RTMPChannel))
    (c c' : String) (ch : Registry.RTMPChannel) (h : c' ≠ c) :
    Registry.lookupChannel (Registry.insertChannel chs c ch) c' =
      Registry.lookupChannel chs c' := by
  have hcc : (c == c') = false := by
    simp only [beq_eq_false_iff_ne, ne_eq]
    intro hcc; exact h hcc.symm
  induction chs with
  | nil => simp [Registry.insertChannel, Registry.lookupChannel, hcc]
  | cons x rest ih =>
    by_cases hx : x.1 = c
    · have hxc' : (x.1 == c') = false := by
        simp only [beq_eq_false_iff_ne, ne_eq]
        intro hcc2; exact h (by rw [← hcc2, hx])
      simp only [Registry.insertChannel, hx, beq_self_eq_true, if_true,
        Registry.lookupChannel, hcc, hxc', if_false]
      simp
    · have hb : (x.1 == c) = false := by simp [hx]
      simp only [Registry.insertChannel, hb, if_false, Registry.lookupChannel]
      cases hxc' : (x.1 == c') with
      | true => simp
      | false => simpa using ih

theorem lookup_removeChannel_self (chs : List (String × Registry.RTMPChannel))
    (c : String) :
    Registry.lookupChannel (Registry.removeChannel chs c) c = none := by
  induction chs with
  | nil => simp [Registry.removeChannel, Registry.lookupChannel]
  | cons x rest ih =>
    by_cases hx : x.1 = c
    · simp only [Registry.removeChannel, hx, beq_self_eq_true, if_true]
      exact ih
    · have hb : (x.1 == c) = false := by simp [hx]
      simp only [Registry.removeChannel, hb, if_false, Registry.lookupChannel]
      exact ih

theorem lookup_removeChannel_ne (chs : List (String × Registry.RTMPChannel))
    (c c' : String) (h : c' ≠ c) :
    Registry.lookupChannel (Registry.removeChannel chs c) c' =
      Registry.lookupChannel chs c' := by
  induction chs with
  | nil => simp [Registry.removeChannel, Registry.lookupChannel]
  | cons x rest ih =>
    by_cases hx : x.1 = c
    · have hxc' : (x.1 == c') = false := by
        simp only [beq_eq_false_iff_ne, ne_eq]
        intro hcc2; exact h (by rw [← hcc2, hx])
      simp only [Registry.removeChannel, hx, beq_self_eq_true, if_true]
      rw [ih]
      simp [Registry.lookupChannel, hxc']
    · have hb : (x.1 == c) = false := by simp [hx]
      simp only [Registry.removeChannel, hb, if_false, Registry.lookupChannel]
      cases hxc' : (x.1 == c') with
      | true => simp
      | false => simpa using ih

end RegistryLemmas

theorem isPublishing_insert_flag (chs : List (String × Registry.RTMPChannel))
    (c : String) (ch : Registry.RTMPChannel)
    (hflag : ch.is_publishing = Registry.isPublishing chs c) (c' : String) :
    Registry.isPublishing (Registry.insertChannel chs c ch) c' =
      Registry.isPublishing chs c' := by
  by_cases hc : c' = c
  · subst hc
    unfold Registry.isPublishing
    rw [lookup_insertChannel_self]
    exact hflag
  · unfold Registry.isPublishing
    rw [lookup_insertChannel_ne _ _ _ _ hc]

theorem isPublishing_of_lookup (chs : List (String × Registry.RTMPChannel))
    (c : String) (ch : Registry.RTMPChannel)
    (h : Registry.lookupChannel chs c = some ch) :
    Registry.isPublishing chs c = ch.is_publishing := by
  unfold Registry.isPublishing
  rw [h]

theorem isPublishing_addPlayer_channels0 (st : Registry.ServerState) (ch k : String)
    (c' : String) :
    Registry.isPublishing
      (if (Registry.lookupChannel st.channels ch).isNone then
        Registry.insertChannel st.channels ch
          { channel := ch, key := k, stream_id := "", publisher := 0,
            is_publishing := false, players := [] }
      else st.channels) c' =
      Registry.isPublishing st.channels c' := by
  cases hl : Registry.lookupChannel st.channels ch with
  | some c0 => simp [hl]
  | none =>
    simp only [hl, Option.isNone_none, if_true]
    apply isPublishing_insert_flag
    unfold Registry.isPublishing
    rw [hl]
theorem inv_addPlayer (st : Registry.ServerState) (ch k : String) (sid : Nat)
    (h : Registry.Inv st) : Registry.Inv (Registry.AddPlayer st ch k sid).2 := by
  obtain ⟨hnd, hc⟩ := h
  unfold Registry.AddPlayer
  simp only []
  split
  · exact ⟨hnd, hc⟩
  · rename_i c0 hlook
    have hch0 := isPublishing_addPlayer_channels0 st ch k
    have hflag := isPublishing_of_lookup _ _ _ hlook
    have hmain : ∀ (b : Bool), Registry.Inv
        ⟨Registry.insertChannel
            (if (Registry.lookupChannel st.channels ch).isNone then
              Registry.insertChannel st.channels ch
                { channel := ch, key := k, stream_id := "", publisher := 0,
                  is_publishing := false, players := [] }
            else st.channels) ch
            { c0 with players := Registry.addPlayerId c0.players sid },
          st.sessions.map (fun s => if s.id == sid then { s with isIdling := b } else s)⟩ := by
      intro b
      have hcnt : ∀ c, Registry.countPub
          ⟨Registry.insertChannel
              (if (Registry.lookupChannel st.channels ch).isNone then
                Registry.insertChannel st.channels ch
                  { channel := ch, key := k, stream_id := "", publisher := 0,
                    is_publishing := false, players := [] }
              else st.channels) ch
              { c0 with players := Registry.addPlayerId c0.players sid },
            st.sessions.map (fun s => if s.id == sid then { s with isIdling := b } else s)⟩ c =
          Registry.countPub st c := by
        intro c
        unfold Registry.countPub
        apply countP_map_eq_of
        intro a
        dsimp only
        split <;> rfl
      constructor
      · simp only []
        rw [ids_map_eq_of]
        · exact hnd
        · intro a; dsimp only; split <;> rfl
      · intro c
        refine ⟨by rw [hcnt c]; exact (hc c).1, ?_⟩
        intro h1
        rw [hcnt c] at h1
        have h2 := (hc c).2 h1
        rw [isPublishing_insert_flag]
        · rw [hch0 c]; exact h2
        · exact hflag.symm
    split
    · split
      · exact hmain false
      · refine ⟨hnd, ?_⟩
        intro c
        refine ⟨(hc c).1, ?_⟩
        intro h1
        have h2 := (hc c).2 h1
        show Registry.isPublishing _ c = true
        rw [hch0 c]
        exact h2
    · exact hmain true

theorem isPublishing_remove_of_false (chs : List (String × Registry.RTMPChannel))
    (c : String) (hflag : Registry.isPublishing chs c = false) (c' : String) :
    Registry.isPublishing (Registry.removeChannel chs c) c' =
      Registry.isPublishing chs c' := by
  by_cases hcc : c' = c
  · subst hcc
    unfold Registry.isPublishing
    rw [lookup_removeChannel_self]
    unfold Registry.isPublishing at hflag
    exact hflag.symm
  · unfold Registry.isPublishing
    rw [lookup_removeChannel_ne _ _ _ hcc]

theorem inv_removePlayer (st : Registry.ServerState) (ch : String) (sid : Nat)
    (h : Registry.Inv st) : Registry.Inv (Registry.RemovePlayer st ch sid) := by
  obtain ⟨hnd, hc⟩ := h
  unfold Registry.RemovePlayer
  simp only []
  split
  · exact ⟨hnd, hc⟩
  · rename_i c0 hlook
    have hflag := isPublishing_of_lookup _ _ _ hlook
    have hcnt : ∀ (c : String), (st.sessions.map (fun s =>
        if s.id == sid then { s with isIdling := false, isPlaying := false } else s)).countP
          (fun s => s.isPublishing && s.channel == c) =
        Registry.countPub st c := by
      intro c
      apply countP_map_eq_of
      intro a
      dsimp only
      split <;> rfl
    have hinsert : ∀ c', Registry.isPublishing
        (Registry.insertChannel st.channels ch
          { c0 with players := Registry.removePlayerId c0.players sid }) c' =
        Registry.isPublishing st.channels c' := by
      intro c'
      apply isPublishing_insert_flag
      exact hflag.symm
    constructor
    · simp only []
      rw [ids_map_eq_of]
      · exact hnd
      · intro a; dsimp only; split <;> rfl
    · intro c
      constructor
      · unfold Registry.countPub
        dsimp only
        rw [hcnt c]
        exact (hc c).1
      intro h1
      unfold Registry.countPub at h1
      dsimp only at h1
      rw [hcnt c] at h1
      have h2 := (hc c).2 h1
      show Registry.isPublishing _ c = true
      split
      · rename_i hdel
        rw [isPublishing_remove_of_false]
        · rw [hinsert c]; exact h2
        · rw [hinsert ch]
          simp only [Bool.and_eq_true, Bool.not_eq_true'] at hdel
          rw [hflag]
          exact hdel.1
      · rw [hinsert c]; exact h2

theorem countP_mono_univ (l : List RTMPSession) (p q : RTMPSession → Bool)
    (h : ∀ a, p a = true → q a = true) : l.countP p ≤ l.countP q := by
  induction l with
  | nil => simp
  | cons x rest ih =>
    simp only [List.countP_cons]
    have hx : (if p x = true then 1 else 0) ≤ (if q x = true then 1 else 0) := by
      by_cases hp : p x = true
      · rw [if_pos hp, if_pos (h x hp)]
      · rw [if_neg hp]
        split <;> omega
    omega

theorem countP_congr_univ (l : List RTMPSession) (p q : RTMPSession → Bool)
    (h : ∀ a, p a = q a) : l.countP p = l.countP q := by
  induction l with
  | nil => simp
  | cons x rest ih => simp only [List.countP_cons, ih, h]

theorem one_le_countP_of_mem (l : List RTMPSession) (a : RTMPSession)
    (p : RTMPSession → Bool) (ha : a ∈ l) (hp : p a = true) :
    1 ≤ l.countP p := by
  induction l with
  | nil => cases ha
  | cons x rest ih =>
    simp only [List.countP_cons]
    rcases List.mem_cons.mp ha with h1 | h1
    · subst h1
      rw [hp]
      simp
    · have := ih h1
      omega

theorem inv_endPublish_core (st : Registry.ServerState) (s : RTMPSession)
    (G : RTMPSession → RTMPSession)
    (hG : ∀ a, (G a).isPublishing = a.isPublishing ∧ (G a).channel = a.channel ∧
      (G a).id = a.id)
    (hinv : Registry.Inv st) (hmem : s ∈ st.sessions) (hpub : s.isPublishing = true)
    (st2 : Registry.ServerState)
    (hsess : st2.sessions = st.sessions.map G)
    (hreg : ∀ c, c ≠ s.channel →
      Registry.isPublishing st2.channels c = Registry.isPublishing st.channels c) :
    Registry.Inv (Registry.updateSession st2
      { s with isPublishing := false, rtmpGopCache := [] }) := by
  obtain ⟨hnd, hc⟩ := hinv
  have hGp : ∀ (c : String) (a : RTMPSession),
      ((G a).isPublishing && (G a).channel == c) = (a.isPublishing && a.channel == c) := by
    intro c a
    rw [(hG a).1, (hG a).2.1]
  have hcnt2 : ∀ c, Registry.countPub st2 c = Registry.countPub st c := by
    intro c
    unfold Registry.countPub
    rw [hsess]
    exact countP_map_eq_of _ _ _ _ (hGp c)
  have hGmem : G s ∈ st2.sessions := by
    rw [hsess]
    exact List.mem_map_of_mem G hmem
  unfold Registry.updateSession
  constructor
  · simp only []
    rw [ids_map_eq_of]
    · rw [hsess, ids_map_eq_of]
      · exact hnd
      · intro a; exact (hG a).2.2
    · intro a
      dsimp only
      by_cases hx : a.id = s.id
      · simp [hx]
      · simp [hx]
  · intro c
    have hsplit := countP_map_ite st2.sessions s.id
      { s with isPublishing := false, rtmpGopCache := [] }
      (fun t => t.isPublishing && t.channel == c)
    have hzero : st2.sessions.countP (fun t => (t.id == s.id) &&
        (({ s with isPublishing := false, rtmpGopCache := [] } : RTMPSession).isPublishing &&
          ({ s with isPublishing := false, rtmpGopCache := [] } : RTMPSession).channel == c)) = 0 := by
      rw [List.countP_eq_zero]
      intro a _
      simp
    have hcount2 : Registry.countPub { st2 with sessions := st2.sessions.map (fun t =>
        if t.id == s.id then { s with isPublishing := false, rtmpGopCache := [] } else t) } c =
        st2.sessions.countP (fun t => !(t.id == s.id) && (t.isPublishing && t.channel == c)) := by
      unfold Registry.countPub
      dsimp only
      rw [hsplit, hzero]
      omega
    have hXle : st2.sessions.countP
        (fun t => !(t.id == s.id) && (t.isPublishing && t.channel == c)) ≤
        Registry.countPub st c := by
      have h1 : st2.sessions.countP
          (fun t => !(t.id == s.id) && (t.isPublishing && t.channel == c)) ≤
          st2.sessions.countP (fun t => t.isPublishing && t.channel == c) := by
        apply countP_mono_univ
        intro a ha
        cases hx : (a.id == s.id) <;> rw [hx] at ha <;> simpa using ha
      have h2 : st2.sessions.countP (fun t => t.isPublishing && t.channel == c) =
          Registry.countPub st c := hcnt2 c
      omega
    constructor
    · rw [hcount2]
      exact le_trans hXle (hc c).1
    · intro h1
      rw [hcount2] at h1
      by_cases hcc : c = s.channel
      · exfalso
        subst hcc
        have hone : 1 ≤ st2.sessions.countP
            (fun t => (t.isPublishing && t.channel == s.channel) && (t.id == s.id)) := by
          apply one_le_countP_of_mem _ (G s) _ hGmem
          have h1 := (hG s).1
          have h2 := (hG s).2.1
          have h3 := (hG s).2.2
          rw [h1, h2, h3, hpub]
          simp
        have hsp := countP_split st2.sessions
          (fun t => t.isPublishing && t.channel == s.channel) (fun t => t.id == s.id)
        have hle1 : Registry.countPub st s.channel ≤ 1 := (hc s.channel).1
        have hc2 : st2.sessions.countP
            (fun t => t.isPublishing && t.channel == s.channel) =
            Registry.countPub st s.channel := hcnt2 s.channel
        have hflip : st2.sessions.countP
            (fun t => !(t.id == s.id) && (t.isPublishing && t.channel == s.channel)) =
            st2.sessions.countP
              (fun t => (t.isPublishing && t.channel == s.channel) && !(t.id == s.id)) := by
          apply countP_congr_univ
          intro a
          cases h1 : (a.id == s.id) <;>
            cases h2 : (a.isPublishing && a.channel == s.channel) <;> simp [h1, h2]
        rw [hflip] at h1
        omega
      · have h2 : 1 ≤ Registry.countPub st c := le_trans h1 hXle
        have h3 := (hc c).2 h2
        show Registry.isPublishing st2.channels c = true
        rw [hreg c hcc]
        exact h3

theorem removePublisher_shape (st1 : Registry.ServerState) (ch : String) :
    ∃ G : RTMPSession → RTMPSession,
      (∀ a, (G a).isPublishing = a.isPublishing ∧ (G a).channel = a.channel ∧
        (G a).id = a.id) ∧
      (Registry.RemovePublisher st1 ch).sessions = st1.sessions.map G ∧
      (∀ c, c ≠ ch →
        Registry.isPublishing (Registry.RemovePublisher st1 ch).channels c =
          Registry.isPublishing st1.channels c) := by
  unfold Registry.RemovePublisher
  cases hlook : Registry.lookupChannel st1.channels ch with
  | none =>
    refine ⟨id, ?_, ?_, ?_⟩
    · intro a; exact ⟨rfl, rfl, rfl⟩
    · simp
    · intro c _; rfl
  | some c0 =>
    simp only []
    refine ⟨(fun p =>
      if ({ c0 with publisher := 0, is_publishing := false } :
          Registry.RTMPChannel).players.contains p.id then
        { p with isIdling := true, isPlaying := false }
      else p), ?_, ?_, ?_⟩
    · intro a
      dsimp only
      split <;> exact ⟨rfl, rfl, rfl⟩
    · rfl
    · intro c hc
      dsimp only
      split
      · unfold Registry.isPublishing
        rw [lookup_removeChannel_ne _ _ _ hc, lookup_insertChannel_ne _ _ _ _ hc]
      · unfold Registry.isPublishing
        rw [lookup_insertChannel_ne _ _ _ _ hc]

theorem inv_endPublish (st : Registry.ServerState) (sid : Nat)
    (hinv : Registry.Inv st) : Registry.Inv (Registry.EndPublish st sid) := by
  unfold Registry.EndPublish
  cases hfind : Registry.findSession st sid with
  | none => exact hinv
  | some s =>
    dsimp only
    cases hpub : s.isPublishing with
    | false =>
      simpa using hinv
    | true =>
      rw [if_pos rfl]
      have hmem : s ∈ st.sessions := List.mem_of_find?_eq_some hfind
      obtain ⟨G2, hG2, hsess2, hreg2⟩ := removePublisher_shape
        { st with sessions := st.sessions.map (fun p =>
            if ((Registry.GetPlayers st s.channel).map (fun p => p.id)).contains p.id then
              { p with isIdling := true, isPlaying := false }
            else p) } s.channel
      refine inv_endPublish_core st s
        (fun p => G2 (if ((Registry.GetPlayers st s.channel).map
              (fun p => p.id)).contains p.id then
            { p with isIdling := true, isPlaying := false }
          else p))
        ?_ hinv hmem hpub _ ?_ ?_
      · intro a
        refine ⟨?_, ?_, ?_⟩
        · dsimp only
          rw [(hG2 _).1]
          split <;> rfl
        · dsimp only
          rw [(hG2 _).2.1]
          split <;> rfl
        · dsimp only
          rw [(hG2 _).2.2]
          split <;> rfl
      · rw [hsess2]
        dsimp only
        rw [List.map_map]
        rfl
      · intro c hcne
        rw [hreg2 c hcne]

theorem map_update_id_of_not_mem (l : List RTMPSession) (r : RTMPSession)
    (h : ∀ t ∈ l, (t.id == r.id) = false) :
    l.map (fun t => if t.id == r.id then r else t) = l := by
  induction l with
  | nil => rfl
  | cons x rest ih =>
    have hx := h x (by simp)
    simp only [List.map_cons, hx, Bool.false_eq_true, if_false]
    rw [ih (fun t ht => h t (by simp [ht]))]

theorem countP_map_update (l : List RTMPSession) (s r : RTMPSession)
    (p : RTMPSession → Bool)
    (hnd : (l.map (fun t => t.id)).Nodup) (hmem : s ∈ l) (hid : r.id = s.id)
    (hp : p r = p s) :
    (l.map (fun t => if t.id == r.id then r else t)).countP p = l.countP p := by
  induction l with
  | nil => rfl
  | cons x rest ih =>
    rw [List.map_cons, List.nodup_cons] at hnd
    rcases List.mem_cons.mp hmem with hx | hx
    · subst hx
      have hhead : (s.id == r.id) = true := by simp [hid]
      have htail : rest.map (fun t => if t.id == r.id then r else t) = rest := by
        apply map_update_id_of_not_mem
        intro t ht
        simp only [beq_eq_false_iff_ne, ne_eq, hid]
        intro he
        exact hnd.1 (by rw [← he]; exact List.mem_map_of_mem _ ht)
      have hheadval : (if (s.id == r.id) = true then r else s) = r := by
        rw [hhead]
        exact if_pos rfl
      simp only [List.map_cons, List.countP_cons]
      rw [hheadval, htail, hp]
    · have hhead : (x.id == r.id) = false := by
        simp only [beq_eq_false_iff_ne, ne_eq, hid]
        intro he
        exact hnd.1 (by rw [he]; exact List.mem_map_of_mem _ hx)
      have htl := ih hnd.2 hx
      have hheadval : (if (x.id == r.id) = true then r else x) = x := by
        rw [hhead]
        exact if_neg (by simp)
      simp only [List.map_cons, List.countP_cons]
      rw [hheadval, htl]

theorem nodup_ids_map (l : List RTMPSession) (f : RTMPSession → RTMPSession)
    (h : ∀ a, (f a).id = a.id) (hnd : (l.map (fun s => s.id)).Nodup) :
    ((l.map f).map (fun s => s.id)).Nodup := by
  rw [ids_map_eq_of l f h]
  exact hnd

theorem mem_updateSession_self (st : Registry.ServerState) (s r : RTMPSession)
    (hmem : s ∈ st.sessions) (hid : r.id = s.id) :
    r ∈ (Registry.updateSession st r).sessions := by
  unfold Registry.updateSession
  dsimp only
  have h2 := List.mem_map_of_mem (fun t => if t.id == r.id then r else t) hmem
  simpa [hid] using h2

theorem inv_updateSession_pres (st : Registry.ServerState) (s r : RTMPSession)
    (hinv : Registry.Inv st) (hmem : s ∈ st.sessions) (hid : r.id = s.id)
    (hpub : r.isPublishing = s.isPublishing) (hch : r.channel = s.channel) :
    Registry.Inv (Registry.updateSession st r) := by
  obtain ⟨hnd, hc⟩ := hinv
  have hcnt : ∀ c, Registry.countPub (Registry.updateSession st r) c =
      Registry.countPub st c := by
    intro c
    unfold Registry.countPub Registry.updateSession
    dsimp only
    exact countP_map_update st.sessions s r _ hnd hmem hid (by rw [hpub, hch])
  refine ⟨?_, ?_⟩
  · unfold Registry.updateSession
    dsimp only
    refine nodup_ids_map _ _ ?_ hnd
    intro a
    dsimp only
    split
    · rename_i h
      simp only [beq_iff_eq] at h
      exact h.symm
    · rfl
  · intro c
    rw [hcnt c]
    refine ⟨(hc c).1, ?_⟩
    intro h1
    exact (hc c).2 h1

theorem setPublisher_isPublishing (chs : List (String × Registry.RTMPChannel))
    (ch k si : String) (sid : Nat)
    (hguard : Registry.isPublishing chs ch = false) (c' : String) :
    Registry.isPublishing (Registry.SetPublisher chs ch k si sid).2 c' =
      (if c' = ch then true else Registry.isPublishing chs c') := by
  unfold Registry.SetPublisher
  cases hlook : Registry.lookupChannel chs ch with
  | none =>
    dsimp only
    by_cases hc : c' = ch
    · subst hc
      rw [if_pos rfl]
      unfold Registry.isPublishing
      rw [lookup_insertChannel_self]
    · rw [if_neg hc]
      unfold Registry.isPublishing
      rw [lookup_insertChannel_ne _ _ _ _ hc]
  | some c0 =>
    have h0 : c0.is_publishing = false := by
      have h := isPublishing_of_lookup chs ch c0 hlook
      rw [hguard] at h
      exact h.symm
    dsimp only
    rw [h0]
    simp only [Bool.false_eq_true, if_false]
    by_cases hc : c' = ch
    · subst hc
      rw [if_pos rfl]
      unfold Registry.isPublishing
      rw [lookup_insertChannel_self]
    · rw [if_neg hc]
      unfold Registry.isPublishing
      rw [lookup_insertChannel_ne _ _ _ _ hc]

theorem inv_publish_success_gen (st2 : Registry.ServerState) (s3 : RTMPSession)
    (g : RTMPSession → RTMPSession)
    (hg : ∀ a, (g a).isPublishing = a.isPublishing ∧ (g a).channel = a.channel ∧
      (g a).id = a.id)
    (hinv : Registry.Inv st2) (s2 : RTMPSession) (hmem : s2 ∈ st2.sessions)
    (hid3 : s3.id = s2.id) (hch3 : s3.channel = s2.channel)
    (hpub3 : s3.isPublishing = true)
    (hguard : Registry.isPublishing st2.channels s2.channel = false)
    (ch5 : List (String × Registry.RTMPChannel))
    (hch5 : ∀ c', Registry.isPublishing ch5 c' =
      (if c' = s2.channel then true else Registry.isPublishing st2.channels c')) :
    Registry.Inv
      { channels := ch5,
        sessions := (Registry.updateSession st2 s3).sessions.map g } := by
  obtain ⟨hnd, hc⟩ := hinv
  refine ⟨?_, ?_⟩
  · dsimp only
    refine nodup_ids_map _ _ (fun a => (hg a).2.2) ?_
    unfold Registry.updateSession
    dsimp only
    refine nodup_ids_map _ _ ?_ hnd
    intro a
    dsimp only
    split
    · rename_i h
      simp only [beq_iff_eq] at h
      exact h.symm
    · rfl
  · intro c
    have hgp : ∀ a : RTMPSession,
        ((g a).isPublishing && (g a).channel == c) =
          (a.isPublishing && a.channel == c) := by
      intro a
      rw [(hg a).1, (hg a).2.1]
    have hmain : Registry.countPub
        { channels := ch5,
          sessions := (Registry.updateSession st2 s3).sessions.map g } c =
        st2.sessions.countP (fun t => (t.id == s3.id) &&
          (s3.isPublishing && s3.channel == c)) +
        st2.sessions.countP
          (fun t => !(t.id == s3.id) && (t.isPublishing && t.channel == c)) := by
      unfold Registry.countPub
      dsimp only
      rw [countP_map_eq_of _ g _ _ hgp]
      unfold Registry.updateSession
      dsimp only
      rw [countP_map_ite]
    have hsecle : st2.sessions.countP
        (fun t => !(t.id == s3.id) && (t.isPublishing && t.channel == c)) ≤
        Registry.countPub st2 c := by
      apply countP_mono_univ
      intro a ha
      simp only [Bool.and_eq_true] at ha
      rw [Bool.and_eq_true]
      exact ha.2
    cases hsc : (s2.channel == c) with
    | false =>
      have h0 : st2.sessions.countP (fun t => (t.id == s3.id) &&
          (s3.isPublishing && s3.channel == c)) = 0 := by
        rw [List.countP_eq_zero]
        intro a _
        simp [hpub3, hch3, hsc]
      refine ⟨?_, ?_⟩
      · rw [hmain, h0]
        have h1 := (hc c).1
        omega
      · intro hone
        rw [hmain, h0] at hone
        have h2 : 1 ≤ Registry.countPub st2 c := le_trans (by omega) hsecle
        have h3 := (hc c).2 h2
        show Registry.isPublishing ch5 c = true
        rw [hch5 c]
        rw [if_neg (by simp only [beq_eq_false_iff_ne, ne_eq] at hsc; exact fun hh => hsc hh.symm)]
        exact h3
    | true =>
      have hceq : s2.channel = c := by simpa using hsc
      have hz : Registry.countPub st2 c = 0 := by
        by_contra hnz
        have h1 : 1 ≤ Registry.countPub st2 c := Nat.one_le_iff_ne_zero.mpr hnz
        have h2 := (hc c).2 h1
        rw [← hceq] at h2
        rw [hguard] at h2
        exact Bool.false_ne_true h2
      have hfirst : st2.sessions.countP (fun t => (t.id == s3.id) &&
          (s3.isPublishing && s3.channel == c)) ≤ 1 := by
        have hle1 : st2.sessions.countP (fun t => (t.id == s3.id) &&
            (s3.isPublishing && s3.channel == c)) ≤
            st2.sessions.countP (fun t => t.id == s3.id) :=
          countP_mono_univ _ _ _ (fun a ha => by
            simp only [Bool.and_eq_true] at ha
            exact ha.1)
        have hle2 := countP_id_le_one st2.sessions s3.id hnd
        omega
      refine ⟨?_, ?_⟩
      · rw [hmain]
        omega
      · intro _
        show Registry.isPublishing ch5 c = true
        rw [hch5 c]
        rw [if_pos hceq.symm]

theorem inv_publish (st : Registry.ServerState) (sid : Nat) (streamName : String)
    (packetStreamId : Nat) (accepted : Bool) (granted : String) (maxLen : Nat)
    (hinv : Registry.Inv st) :
    Registry.Inv
      (Registry.HandlePublish st sid streamName packetStreamId accepted granted
        maxLen).1 := by
  unfold Registry.HandlePublish
  cases hfind : Registry.findSession st sid with
  | none => exact hinv
  | some s =>
    dsimp only
    have hmem : s ∈ st.sessions := List.mem_of_find?_eq_some hfind
    have hinv1 := inv_updateSession_pres st s
      { s with key := (goSplit '?' streamName).getD 0 "" } hinv hmem rfl rfl rfl
    have hmem1 := mem_updateSession_self st s
      { s with key := (goSplit '?' streamName).getD 0 "" } hmem rfl
    have hinv2 := inv_updateSession_pres
      (Registry.updateSession st { s with key := (goSplit '?' streamName).getD 0 "" })
      { s with key := (goSplit '?' streamName).getD 0 "" }
      { s with key := (goSplit '?' streamName).getD 0 "",
               publishStreamId := packetStreamId }
      hinv1 hmem1 rfl rfl rfl
    have hmem2 := mem_updateSession_self
      (Registry.updateSession st { s with key := (goSplit '?' streamName).getD 0 "" })
      { s with key := (goSplit '?' streamName).getD 0 "" }
      { s with key := (goSplit '?' streamName).getD 0 "",
               publishStreamId := packetStreamId }
      hmem1 rfl
    split
    · exact hinv1
    · split
      · exact hinv1
      · split
        · exact hinv2
        · split
          · exact hinv2
          · split
            · exact hinv2
            · rename_i hA hB hC hD hE
              have hguard : Registry.isPublishing
                  (Registry.updateSession
                    (Registry.updateSession st
                      { s with key := (goSplit '?' streamName).getD 0 "" })
                    { s with key := (goSplit '?' streamName).getD 0 "",
                             publishStreamId := packetStreamId }).channels
                  ({ s with key := (goSplit '?' streamName).getD 0 "",
                            publishStreamId := packetStreamId } :
                    RTMPSession).channel = false := by
                simpa using hD
              refine inv_publish_success_gen _
                { s with key := (goSplit '?' streamName).getD 0 "",
                         publishStreamId := packetStreamId,
                         isPublishing := true, stream_id := granted }
                _ ?_ hinv2 _ hmem2 rfl rfl rfl hguard _ ?_
              · intro a
                refine ⟨?_, ?_, ?_⟩
                · dsimp only
                  split <;> rfl
                · dsimp only
                  split <;> rfl
                · dsimp only
                  split <;> rfl
              · intro c'
                exact setPublisher_isPublishing _ _ _ _ _ hguard c'

theorem countPub_updateSession (st : Registry.ServerState) (s r : RTMPSession)
    (hnd : (st.sessions.map (fun t => t.id)).Nodup) (hmem : s ∈ st.sessions)
    (hid : r.id = s.id) (hpub : r.isPublishing = s.isPublishing)
    (hch : r.channel = s.channel) (c : String) :
    Registry.countPub (Registry.updateSession st r) c = Registry.countPub st c := by
  unfold Registry.countPub Registry.updateSession
  dsimp only
  exact countP_map_update st.sessions s r _ hnd hmem hid (by rw [hpub, hch])

theorem nodup_updateSession (st : Registry.ServerState) (r : RTMPSession)
    (hnd : (st.sessions.map (fun t => t.id)).Nodup) :
    ((Registry.updateSession st r).sessions.map (fun t => t.id)).Nodup := by
  unfold Registry.updateSession
  dsimp only
  refine nodup_ids_map _ _ ?_ hnd
  intro a
  dsimp only
  split
  · rename_i h
    simp only [beq_iff_eq] at h
    exact h.symm
  · rfl

/-- C1: `SetPublisher` refuses (returns `false` with the registry unchanged)
when the channel already has a publisher; a publish command received while
the registry marks the session's channel as publishing is answered with
`NetStream.Publish.BadName`, leaves the channel table unchanged and does not
change any channel's publisher count; and the single-publisher bound — at
most one publishing session per channel, with the registry flag set whenever
one exists — is an invariant of every registry operation (publish,
end-publish, add-player, remove-player). -/
theorem single_publisher_registry_invariant :
    (∀ (chs : List (String × Registry.RTMPChannel)) (ch k si : String) (sid : Nat),
        Registry.isPublishing chs ch = true →
        Registry.SetPublisher chs ch k si sid = (false, chs)) ∧
    (∀ (st : Registry.ServerState) (sid : Nat) (streamName : String)
        (packetStreamId : Nat) (accepted : Bool) (granted : String) (maxLen : Nat)
        (s : RTMPSession),
        Registry.findSession st sid = some s →
        (st.sessions.map (fun t => t.id)).Nodup →
        (goSplit '?' streamName).getD 0 "" ≠ "" →
        s.isConnected = true →
        Registry.validateStreamIDString ((goSplit '?' streamName).getD 0 "") maxLen
            = true →
        s.isPublishing = false →
        Registry.isPublishing st.channels s.channel = true →
        (Registry.HandlePublish st sid streamName packetStreamId accepted granted
            maxLen).2 = some "NetStream.Publish.BadName" ∧
        (Registry.HandlePublish st sid streamName packetStreamId accepted granted
            maxLen).1.channels = st.channels ∧
        ∀ c, Registry.countPub
            (Registry.HandlePublish st sid streamName packetStreamId accepted
              granted maxLen).1 c = Registry.countPub st c) ∧
    (∀ (st : Registry.ServerState) (op : Registry.ServerOp),
        Registry.Inv st → Registry.Inv (Registry.applyOp st op)) := by
  refine ⟨?_, ?_, ?_⟩
  · intro chs ch k si sid hpub
    unfold Registry.isPublishing at hpub
    unfold Registry.SetPublisher
    cases hlook : Registry.lookupChannel chs ch with
    | none =>
      rw [hlook] at hpub
      exact absurd hpub (by simp)
    | some c0 =>
      rw [hlook] at hpub
      dsimp only
      rw [if_pos hpub]
  · intro st sid streamName packetStreamId accepted granted maxLen s hfind hnd
      hkey hconn hvalid hnotpub hreg
    unfold Registry.HandlePublish
    rw [hfind]
    dsimp only
    rw [if_neg ?hc1]
    case hc1 =>
      intro h
      simp only [Bool.or_eq_true, decide_eq_true_eq, Bool.not_eq_true'] at h
      rcases h with h | h
      · exact hkey h
      · rw [hconn] at h
        exact absurd h (by decide)
    rw [if_neg ?hc2]
    case hc2 =>
      intro h
      simp only [Bool.not_eq_true'] at h
      rw [hvalid] at h
      exact absurd h (by decide)
    rw [if_neg ?hc3]
    case hc3 =>
      intro h
      rw [hnotpub] at h
      exact absurd h (by decide)
    split
    case isFalse h => exact absurd hreg h
    refine ⟨rfl, rfl, ?_⟩
    intro c
    exact (countPub_updateSession
        (Registry.updateSession st { s with key := (goSplit '?' streamName).getD 0 "" })
        { s with key := (goSplit '?' streamName).getD 0 "" }
        { s with key := (goSplit '?' streamName).getD 0 "",
                 publishStreamId := packetStreamId }
        (nodup_updateSession st _ hnd)
        (mem_updateSession_self st s _ (List.mem_of_find?_eq_some hfind) rfl)
        rfl rfl rfl c).trans
      (countPub_updateSession st s
        { s with key := (goSplit '?' streamName).getD 0 "" }
        hnd (List.mem_of_find?_eq_some hfind) rfl rfl rfl c)
  · intro st op hinv
    cases op with
    | publish sid streamName packetStreamId accepted granted maxLen =>
      exact inv_publish st sid streamName packetStreamId accepted granted maxLen hinv
    | endPublish sid => exact inv_endPublish st sid hinv
    | addPlayer channel key sid => exact inv_addPlayer st channel key sid hinv
    | removePlayer channel sid => exact inv_removePlayer st channel sid hinv

/-- Witness for the C1 theorem: a registry whose channel `live` is already
publishing makes `SetPublisher` refuse, and the invariant is preserved by a
concrete `addPlayer` step from the empty registry. -/
theorem single_publisher_registry_invariant_witness :
    (Registry.SetPublisher
        [("live", { channel := "live", key := "k", stream_id := "sid",
                    publisher := 7, is_publishing := true, players := [] })]
        "live" "k2" "sid2" 9 =
      (false,
        [("live", { channel := "live", key := "k", stream_id := "sid",
                    publisher := 7, is_publishing := true, players := [] })])) ∧
    Registry.Inv (Registry.applyOp { channels := [], sessions := [] }
      (Registry.ServerOp.addPlayer "live" "k" 1)) :=
  ⟨single_publisher_registry_invariant.1 _ "live" "k2" "sid2" 9 (by decide),
   single_publisher_registry_invariant.2.2 _ _
     ⟨by simp, fun c =>
       ⟨Nat.zero_le 1, fun h => absurd h (by simp [Registry.countPub])⟩⟩⟩

section ByteLemmas

theorem lor_shift_add (n : Nat) : ∀ (a b : Nat), b < 2 ^ n →
    (a <<< n) ||| b = a <<< n + b := by
  induction n with
  | zero =>
    intro a b hb
    have hb0 : b = 0 := by omega
    subst hb0
    simp
  | succ n ih =>
    intro a b hb
    have hs : a <<< (n + 1) = 2 * (a <<< n) := by
      rw [Nat.shiftLeft_succ_inside]
      rw [Nat.shiftLeft_eq, Nat.shiftLeft_eq]
      ring
    have hp : (2 : Nat) ^ (n + 1) = 2 * 2 ^ n := by ring
    have hdiv : ((a <<< (n + 1)) ||| b) / 2 = (a <<< n) + b / 2 := by
      rw [Nat.or_div_two]
      have h1 : a <<< (n + 1) / 2 = a <<< n := by omega
      rw [h1]
      exact ih a (b / 2) (by omega)
    have hmod : ((a <<< (n + 1)) ||| b) % 2 = b % 2 := by
      rcases Nat.mod_two_eq_zero_or_one b with h | h
      · rcases Nat.mod_two_eq_zero_or_one ((a <<< (n + 1)) ||| b) with h2 | h2
        · omega
        · rcases Nat.or_mod_two_eq_one.mp h2 with h3 | h3 <;> omega
      · have h2 : ((a <<< (n + 1)) ||| b) % 2 = 1 :=
          Nat.or_mod_two_eq_one.mpr (Or.inr h)
        omega
    have hdm := Nat.div_add_mod ((a <<< (n + 1)) ||| b) 2
    omega

theorem or3_bytes (b0 b1 b2 : Nat) (h0 : b0 < 256) (h1 : b1 < 256)
    (h2 : b2 < 256) :
    b2 ||| b1 <<< 8 ||| b0 <<< 16 = b0 * 65536 + b1 * 256 + b2 := by
  have e1 : b1 <<< 8 = b1 * 256 := by rw [Nat.shiftLeft_eq]
  have e0 : b0 <<< 16 = b0 * 65536 := by rw [Nat.shiftLeft_eq]
  rw [Nat.lor_comm b2 (b1 <<< 8), Nat.lor_comm _ (b0 <<< 16)]
  rw [lor_shift_add 8 b1 b2 (by omega)]
  rw [lor_shift_add 16 b0 _ (by omega)]
  omega

theorem or4_bytes (b0 b1 b2 b3 : Nat) (h0 : b0 < 256) (h1 : b1 < 256)
    (h2 : b2 < 256) (h3 : b3 < 256) :
    b0 <<< 24 ||| b1 <<< 16 ||| b2 <<< 8 ||| b3 =
      b0 * 16777216 + b1 * 65536 + b2 * 256 + b3 := by
  have e0 : b0 <<< 24 = b0 * 16777216 := by rw [Nat.shiftLeft_eq]
  have e1 : b1 <<< 16 = b1 * 65536 := by rw [Nat.shiftLeft_eq]
  have e2 : b2 <<< 8 = b2 * 256 := by rw [Nat.shiftLeft_eq]
  rw [Nat.lor_assoc, Nat.lor_assoc]
  rw [lor_shift_add 8 b2 b3 (by omega)]
  rw [lor_shift_add 16 b1 _ (by omega)]
  rw [lor_shift_add 24 b0 _ (by omega)]
  omega

theorem getPut32BE (v : Nat) (hv : v < 2 ^ 32) :
    getUint32BE (putUint32BE v) = v := by
  unfold getUint32BE putUint32BE byteOf
  simp only [List.getD_cons_zero, List.getD_cons_succ]
  rw [or4_bytes _ _ _ _ (by omega) (by omega) (by omega) (by omega)]
  rw [Nat.shiftRight_eq_div_pow, Nat.shiftRight_eq_div_pow, Nat.shiftRight_eq_div_pow]
  norm_num
  omega

theorem getPut32LE (v : Nat) (hv : v < 2 ^ 32) :
    getUint32LE (putUint32LE v) = v := by
  unfold getUint32LE putUint32LE byteOf
  simp only [List.getD_cons_zero, List.getD_cons_succ]
  rw [or4_bytes _ _ _ _ (by omega) (by omega) (by omega) (by omega)]
  rw [Nat.shiftRight_eq_div_pow, Nat.shiftRight_eq_div_pow, Nat.shiftRight_eq_div_pow]
  norm_num
  omega

end ByteLemmas

section ChunkLoopLemmas

theorem createChunksPayloadLoop_step (cs : Nat) (sep payload : List Nat)
    (h : payload.length > cs) (hcs : 0 < cs) :
    Chunks.createChunksPayloadLoop cs sep payload =
      payload.take cs ++ sep ++
        Chunks.createChunksPayloadLoop cs sep (payload.drop cs) := by
  rw [Chunks.createChunksPayloadLoop]
  rw [dif_pos ⟨h, hcs⟩]

theorem createChunksPayloadLoop_last (cs : Nat) (sep payload : List Nat)
    (h : ¬payload.length > cs) :
    Chunks.createChunksPayloadLoop cs sep payload = payload := by
  rw [Chunks.createChunksPayloadLoop]
  rw [dif_neg (fun hh => h hh.1)]

theorem createChunksPayloadLoop_length (cs : Nat) (hcs : 0 < cs)
    (sep : List Nat) :
    ∀ payload : List Nat,
      (Chunks.createChunksPayloadLoop cs sep payload).length =
        payload.length + ((payload.length - 1) / cs) * sep.length := by
  suffices h : ∀ (n : Nat) (payload : List Nat), payload.length = n →
      (Chunks.createChunksPayloadLoop cs sep payload).length =
        payload.length + ((payload.length - 1) / cs) * sep.length by
    intro payload
    exact h payload.length payload rfl
  intro n
  induction n using Nat.strong_induction_on with
  | _ n ih =>
    intro payload hlen
    by_cases hgt : payload.length > cs
    · rw [createChunksPayloadLoop_step cs sep payload hgt hcs]
      rw [List.length_append, List.length_append]
      rw [ih (payload.length - cs) (by omega) (payload.drop cs) (by simp)]
      simp only [List.length_take, List.length_drop]
      have harith : (payload.length - 1) / cs = (payload.length - cs - 1) / cs + 1 := by
        have h1 : payload.length - 1 = (payload.length - cs - 1) + cs := by omega
        rw [h1, Nat.add_div_right _ hcs]
      rw [harith, Nat.add_mul, one_mul]
      have hmin : min cs payload.length = cs := by omega
      rw [hmin]
      omega
    · rw [createChunksPayloadLoop_last cs sep payload hgt]
      have h0 : (payload.length - 1) / cs = 0 := Nat.div_eq_of_lt (by omega)
      rw [h0]
      simp

end ChunkLoopLemmas

theorem take_add_list (m n : Nat) : ∀ l : List Nat,
    l.take (m + n) = l.take m ++ (l.drop m).take n := by
  induction m with
  | zero => intro l; simp
  | succ m ih =>
    intro l
    cases l with
    | nil => simp
    | cons x xs =>
      have h1 : m + 1 + n = (m + n) + 1 := by omega
      rw [h1]
      simp only [List.take_succ_cons, List.drop_succ_cons, List.cons_append]
      rw [ih xs]

theorem readChunk_on_cont (cid : Nat) (hcid2 : 2 ≤ cid) (hcid64 : cid < 64)
    (s : Chunks.RTMPSessionIn) (q : Chunks.RTMPPacket) (rest0 : List Nat)
    (hpk : s.inPackets = [(cid, q)]) (hh : q.handled = false)
    (hpt : q.header.packet_type ≤ 22) :
    Chunks.ReadChunk s ((192 + cid) :: rest0) =
      match Chunks.readChunkExtendedTs
          { q with header := { q.header with cid := cid, fmt := 3 } } rest0 with
      | none => none
      | some (ets, rest3) =>
        Chunks.readChunkPayload s
          { q with header := { q.header with cid := cid, fmt := 3 } } cid 3 ets
          rest3 := by
  have hsb1 : (192 + cid) &&& 0x3f = cid := by
    have h63 : (0x3f : Nat) = 2 ^ 6 - 1 := by norm_num
    rw [h63, Nat.and_pow_two_sub_one_eq_mod]
    omega
  have hsb2 : (192 + cid) >>> 6 = 3 := by
    rw [Nat.shiftRight_eq_div_pow]
    norm_num
    omega
  have h0 : (cid == 0) = false := by
    simp only [beq_eq_false_iff_ne, ne_eq]
    omega
  have h1 : (cid == 1) = false := by
    simp only [beq_eq_false_iff_ne, ne_eq]
    omega
  have hnpt : ¬(q.header.packet_type > Chunks.RTMP_TYPE_METADATA) := by
    unfold Chunks.RTMP_TYPE_METADATA
    omega
  unfold Chunks.ReadChunk
  simp only [hsb1, hsb2, h0, h1, Bool.false_eq_true, if_false]
  simp only [Chunks.readN, List.take_zero, List.drop_zero, Nat.sub_self,
    Nat.zero_le, if_true, Chunks.rtmpHeaderSize, List.getD, List.nil_append,
    List.get?_eq_getElem?]
  simp only [Chunks.readChunkCid, hsb1]
  rw [hpk]
  simp only [Chunks.lookupPacket, beq_self_eq_true, if_true, hh,
    Bool.false_eq_true, if_false]
  simp only [Chunks.readChunkApplyHeader, Chunks.RTMP_CHUNK_TYPE_2,
    Chunks.RTMP_CHUNK_TYPE_1, Chunks.RTMP_CHUNK_TYPE_0]
  norm_num
  simp only [hh, Bool.false_eq_true, if_false]
  rw [if_neg (show ¬(Chunks.RTMP_TYPE_METADATA < q.header.packet_type) by
    unfold Chunks.RTMP_TYPE_METADATA
    omega)]

theorem bh3_eq (cid : Nat) (hcid64 : cid < 64) :
    Chunks.rtmpChunkBasicHeaderCreate Chunks.RTMP_CHUNK_TYPE_3 cid = [192 + cid] := by
  unfold Chunks.rtmpChunkBasicHeaderCreate Chunks.RTMP_CHUNK_TYPE_3
  rw [if_neg (by omega), if_neg (by omega)]
  have h1 : byteOf (3 <<< 6) = 192 := by decide
  have h2 : byteOf cid = cid := by unfold byteOf; omega
  rw [h1, h2]
  have h3 : (192 : Nat) = 3 <<< 6 := by decide
  rw [h3, lor_shift_add 6 3 cid (by omega)]

theorem readChunk_on_cont2 (cid : Nat) (hcid2 : 2 ≤ cid) (hcid64 : cid < 64)
    (s : Chunks.RTMPSessionIn) (q : Chunks.RTMPPacket) (rest0 : List Nat)
    (hpk : s.inPackets = [(cid, q)]) (hh : q.handled = false)
    (hpt : q.header.packet_type ≤ 22) (ets : Int) (rest3 : List Nat)
    (hets : Chunks.readChunkExtendedTs
      { q with header := { q.header with cid := cid, fmt := 3 } } rest0 =
        some (ets, rest3)) :
    Chunks.ReadChunk s ((192 + cid) :: rest0) =
      Chunks.readChunkPayload s
        { q with header := { q.header with cid := cid, fmt := 3 } } cid 3 ets
        rest3 := by
  rw [readChunk_on_cont cid hcid2 hcid64 s q rest0 hpk hh hpt, hets]

theorem readChunks_cont (cs cid : Nat) (P ext : List Nat)
    (hcs : 0 < cs) (hcid2 : 2 ≤ cid) (hcid64 : cid < 64) :
    ∀ (fuel : Nat) (s : Chunks.RTMPSessionIn) (q : Chunks.RTMPPacket),
      s.inChunkSize = cs →
      s.inPackets = [(cid, q)] →
      q.handled = false →
      q.header.packet_type ≤ 22 →
      q.header.length = P.length →
      q.bytes % cs = 0 → q.bytes ≠ 0 → q.bytes < P.length →
      q.payload = P.take q.bytes →
      q.clock ≤ 0xffffffff →
      (q.header.timestamp = 0xffffff → ext.length = 4) →
      (q.header.timestamp ≠ 0xffffff → ext = []) →
      P.length - q.bytes ≤ fuel →
      ∃ sfin, Chunks.readChunks fuel s
          ((192 + cid) :: (ext ++ Chunks.createChunksPayloadLoop cs
            ((192 + cid) :: ext) (P.drop q.bytes))) =
        some (sfin,
          { q with header := { q.header with cid := cid, fmt := 3 },
                   bytes := P.length, payload := P, handled := true }, []) := by
  intro fuel
  induction fuel with
  | zero =>
    intro s q _ _ _ _ _ _ _ hblt _ _ _ _ hfuel
    omega
  | succ fuel ih =>
    intro s q hchunk hpk hh hpt22 hlen hbmod hbne hblt hpay hclock hext hnext hfuel
    have hets : ∀ L : List Nat, ∃ e,
        Chunks.readChunkExtendedTs
          { q with header := { q.header with cid := cid, fmt := 3 } } (ext ++ L) =
          some (e, L) := by
      intro L
      by_cases hts : q.header.timestamp = 0xffffff
      · refine ⟨Int.ofNat (getUint32BE (List.take 4 (ext ++ L))), ?_⟩
        unfold Chunks.readChunkExtendedTs
        have hc : ({ q with header := { q.header with cid := cid, fmt := 3 } } :
            Chunks.RTMPPacket).header.timestamp = 0xffffff := hts
        rw [if_pos (by simpa using hc)]
        unfold Chunks.readN
        rw [if_pos (by simp [List.length_append, hext hts])]
        rw [List.drop_left' (hext hts)]
      · refine ⟨q.header.timestamp, ?_⟩
        unfold Chunks.readChunkExtendedTs
        rw [if_neg (by simpa using hts)]
        rw [hnext hts, List.nil_append]
    by_cases hA : cs < P.length - q.bytes
    · -- a full middle chunk: cs payload bytes, packet still incomplete
      have hloop : Chunks.createChunksPayloadLoop cs ((192 + cid) :: ext)
          (P.drop q.bytes) =
          (P.drop q.bytes).take cs ++
            ((192 + cid) :: (ext ++ Chunks.createChunksPayloadLoop cs
              ((192 + cid) :: ext) (P.drop (q.bytes + cs)))) := by
        rw [createChunksPayloadLoop_step cs _ _ (by simp; omega) hcs]
        rw [List.drop_drop]
        simp [List.append_assoc]
      obtain ⟨ETS, hets1⟩ := hets
        ((P.drop q.bytes).take cs ++
          ((192 + cid) :: (ext ++ Chunks.createChunksPayloadLoop cs
            ((192 + cid) :: ext) (P.drop (q.bytes + cs)))))
      have hTlen : ((P.drop q.bytes).take cs).length = cs := by simp; omega
      have hpayl : Chunks.readChunkPayload s
          { q with header := { q.header with cid := cid, fmt := 3 } } cid 3 ETS
          ((P.drop q.bytes).take cs ++
            ((192 + cid) :: (ext ++ Chunks.createChunksPayloadLoop cs
              ((192 + cid) :: ext) (P.drop (q.bytes + cs))))) =
          some ({ s with inPackets := [(cid,
                           { q with header := { q.header with cid := cid, fmt := 3 },
                                    bytes := q.bytes + cs,
                                    payload := P.take (q.bytes + cs) })],
                         clock := s.clock },
            (192 + cid) :: (ext ++ Chunks.createChunksPayloadLoop cs
              ((192 + cid) :: ext) (P.drop (q.bytes + cs))),
            none) := by
        unfold Chunks.readChunkPayload
        have hqb0 : (q.bytes == 0) = false := by
          simp only [beq_eq_false_iff_ne, ne_eq]
          exact hbne
        simp only [hqb0, Bool.false_eq_true, if_false]
        have hsz : s.inChunkSize - q.bytes % s.inChunkSize = cs := by
          rw [hchunk, hbmod]
          omega
        rw [hsz]
        have hmin : min cs (q.header.length - q.bytes) = cs := by
          rw [hlen]; omega
        rw [hmin]
        rw [if_pos hcs]
        unfold Chunks.readN
        rw [if_pos (by simp only [List.length_append, hTlen]; omega)]
        rw [List.take_left' hTlen, List.drop_left' hTlen]
        simp only []
        rw [hpay, ← take_add_list]
        have hncomp : ¬(q.bytes + cs ≥ q.header.length) := by rw [hlen]; omega
        rw [if_neg hncomp]
        rw [if_neg (fun hh2 => hncomp hh2.1)]
        rw [hpk]
        simp only [Chunks.insertPacket, beq_self_eq_true, if_true]
      rw [hloop]
      simp only [Chunks.readChunks]
      have hstep2 := (readChunk_on_cont2 cid hcid2 hcid64 s q _
        hpk hh hpt22 ETS _ hets1).trans hpayl
      rw [hstep2]
      obtain ⟨sfin, hfin⟩ := ih
        { s with inPackets := [(cid,
                   { q with header := { q.header with cid := cid, fmt := 3 },
                            bytes := q.bytes + cs,
                            payload := P.take (q.bytes + cs) })],
                 clock := s.clock }
        { q with header := { q.header with cid := cid, fmt := 3 },
                 bytes := q.bytes + cs, payload := P.take (q.bytes + cs) }
        hchunk rfl hh hpt22 hlen
        (by dsimp only; rw [Nat.add_mod_right]; exact hbmod)
        (by dsimp only; omega) (by dsimp only; omega) rfl hclock hext hnext
        (by dsimp only; omega)
      exact ⟨sfin, hfin⟩
    · -- the last chunk: the remaining bytes complete the packet
      have hloop : Chunks.createChunksPayloadLoop cs ((192 + cid) :: ext)
          (P.drop q.bytes) = P.drop q.bytes := by
        apply createChunksPayloadLoop_last
        simp
        omega
      obtain ⟨ETS, hets1⟩ := hets (P.drop q.bytes)
      have hpayl : Chunks.readChunkPayload s
          { q with header := { q.header with cid := cid, fmt := 3 } } cid 3 ETS
          (P.drop q.bytes) =
          some ({ s with inPackets := [(cid,
                           { q with header := { q.header with cid := cid, fmt := 3 },
                                    bytes := P.length, payload := P,
                                    handled := true })],
                         clock := s.clock },
            [],
            some { q with header := { q.header with cid := cid, fmt := 3 },
                          bytes := P.length, payload := P, handled := true }) := by
        unfold Chunks.readChunkPayload
        have hqb0 : (q.bytes == 0) = false := by
          simp only [beq_eq_false_iff_ne, ne_eq]
          exact hbne
        simp only [hqb0, Bool.false_eq_true, if_false]
        have hsz : s.inChunkSize - q.bytes % s.inChunkSize = cs := by
          rw [hchunk, hbmod]
          omega
        rw [hsz]
        have hmin : min cs (q.header.length - q.bytes) = P.length - q.bytes := by
          rw [hlen]; omega
        rw [hmin]
        rw [if_pos (by omega)]
        unfold Chunks.readN
        rw [if_pos (by simp)]
        have hdlen : P.length - q.bytes = (P.drop q.bytes).length := by simp
        rw [hdlen, List.take_length, List.drop_length]
        simp only []
        rw [hpay, List.take_append_drop]
        have hbeq : q.bytes + (P.drop q.bytes).length = P.length := by simp; omega
        rw [hbeq]
        have hcomp : P.length ≥ q.header.length := by rw [hlen]
        rw [if_pos hcomp]
        rw [if_pos ⟨hcomp, hclock⟩]
        rw [hpk]
        simp only [Chunks.insertPacket, beq_self_eq_true, if_true]
      rw [hloop]
      simp only [Chunks.readChunks]
      have hstep2 := (readChunk_on_cont2 cid hcid2 hcid64 s q _
        hpk hh hpt22 ETS _ hets1).trans hpayl
      rw [hstep2]
      exact ⟨_, rfl⟩

theorem decode24_put (v : Nat) (hv : v < 2 ^ 24) :
    byteOf v ||| byteOf (v >>> 8) <<< 8 ||| byteOf (v >>> 16) <<< 16 = v := by
  unfold byteOf
  rw [or3_bytes _ _ _ (by omega) (by omega) (by omega)]
  rw [Nat.shiftRight_eq_div_pow, Nat.shiftRight_eq_div_pow]
  norm_num
  omega

theorem bh0_eq (cid : Nat) (hcid64 : cid < 64) :
    Chunks.rtmpChunkBasicHeaderCreate 0 cid = [cid] := by
  unfold Chunks.rtmpChunkBasicHeaderCreate
  rw [if_neg (by omega), if_neg (by omega)]
  have h1 : byteOf (0 <<< 6) = 0 := by decide
  have h2 : byteOf cid = cid := by unfold byteOf; omega
  rw [h1, h2]
  simp

theorem mh0_eq (pkt : Chunks.RTMPPacket) (hfmt : pkt.header.fmt = 0) :
    Chunks.rtmpChunkMessageHeaderCreate pkt =
      (if pkt.header.timestamp ≥ 0xffffff then (putUint32BE 0xffffff).drop 1
       else (putUint32BE (Chunks.int64ToUint32 pkt.header.timestamp)).drop 1) ++
      ((putUint32BE pkt.header.length).drop 1 ++ [byteOf pkt.header.packet_type]) ++
      putUint32LE pkt.header.stream_id := by
  unfold Chunks.rtmpChunkMessageHeaderCreate
  rw [hfmt]
  norm_num [Chunks.RTMP_CHUNK_TYPE_2, Chunks.RTMP_CHUNK_TYPE_1,
    Chunks.RTMP_CHUNK_TYPE_0]

theorem readChunk_first (s : Chunks.RTMPSessionIn)
    (cid ptype sid len tsf : Nat) (rest2 : List Nat)
    (hpk : s.inPackets = [])
    (hcid2 : 2 ≤ cid) (hcid64 : cid < 64) (hpt : ptype ≤ 22)
    (htsf : tsf ≤ 0xffffff) (hlen24 : len < 2 ^ 24) (hsid : sid < 2 ^ 32) :
    Chunks.ReadChunk s (cid ::
        (((putUint32BE tsf).drop 1 ++
          ((putUint32BE len).drop 1 ++ [byteOf ptype]) ++ putUint32LE sid) ++
         rest2)) =
      match Chunks.readChunkExtendedTs
          { header := { timestamp := Int.ofNat tsf, fmt := 0, cid := cid,
                        packet_type := ptype, stream_id := sid, length := len },
            clock := 0, payload := [], capacity := 0, bytes := 0,
            handled := false } rest2 with
      | none => none
      | some (ets, rest3) =>
        Chunks.readChunkPayload s
          { header := { timestamp := Int.ofNat tsf, fmt := 0, cid := cid,
                        packet_type := ptype, stream_id := sid, length := len },
            clock := 0, payload := [], capacity := 0, bytes := 0,
            handled := false } cid 0 ets rest3 := by
  have hsb1 : cid &&& 0x3f = cid := by
    have h63 : (0x3f : Nat) = 2 ^ 6 - 1 := by norm_num
    rw [h63, Nat.and_pow_two_sub_one_eq_mod]
    omega
  have hsb2 : cid >>> 6 = 0 := by
    rw [Nat.shiftRight_eq_div_pow]
    norm_num
    omega
  have h0 : (cid == 0) = false := by
    simp only [beq_eq_false_iff_ne, ne_eq]
    omega
  have h1 : (cid == 1) = false := by
    simp only [beq_eq_false_iff_ne, ne_eq]
    omega
  have hMH : (putUint32BE tsf).drop 1 ++
      ((putUint32BE len).drop 1 ++ [byteOf ptype]) ++ putUint32LE sid =
      [byteOf (tsf >>> 16), byteOf (tsf >>> 8), byteOf tsf,
       byteOf (len >>> 16), byteOf (len >>> 8), byteOf len, byteOf ptype,
       byteOf sid, byteOf (sid >>> 8), byteOf (sid >>> 16), byteOf (sid >>> 24)] := by
    simp [putUint32BE, putUint32LE]
  have hMHlen : ([byteOf (tsf >>> 16), byteOf (tsf >>> 8), byteOf tsf,
       byteOf (len >>> 16), byteOf (len >>> 8), byteOf len, byteOf ptype,
       byteOf sid, byteOf (sid >>> 8), byteOf (sid >>> 16), byteOf (sid >>> 24)] :
       List Nat).length = 11 := by simp
  have hhs : Chunks.rtmpHeaderSize.getD 0 0 = 11 := rfl
  rw [hMH]
  unfold Chunks.ReadChunk
  simp only [hsb1, hsb2, h0, h1, Bool.false_eq_true, if_false]
  simp only [Chunks.readN, List.take_zero, List.drop_zero, Nat.sub_self,
    Nat.zero_le, if_true, hhs, List.nil_append]
  rw [if_pos (by simp only [List.length_append, hMHlen]; omega)]
  rw [List.take_left' hMHlen, List.drop_left' hMHlen]
  simp only [Chunks.readChunkCid, hsb1]
  rw [hpk]
  simp only [Chunks.lookupPacket, Chunks.createBlankRTMPPacket]
  simp only [Chunks.readChunkApplyHeader, Chunks.RTMP_CHUNK_TYPE_2,
    Chunks.RTMP_CHUNK_TYPE_1, Chunks.RTMP_CHUNK_TYPE_0]
  norm_num
  rw [decode24_put tsf (by omega), decode24_put len hlen24]
  have hpt' : byteOf ptype = ptype := by unfold byteOf; omega
  have hsid' : getUint32LE [byteOf sid, byteOf (sid >>> 8), byteOf (sid >>> 16),
      byteOf (sid >>> 24)] = sid := by
    have h := getPut32LE sid hsid
    simpa [putUint32LE] using h
  rw [hpt', hsid']
  rw [if_neg (show ¬(Chunks.RTMP_TYPE_METADATA < ptype) by
    unfold Chunks.RTMP_TYPE_METADATA
    omega)]

theorem readChunk_first2 (s : Chunks.RTMPSessionIn)
    (cid ptype sid len tsf : Nat) (rest2 : List Nat)
    (hpk : s.inPackets = [])
    (hcid2 : 2 ≤ cid) (hcid64 : cid < 64) (hpt : ptype ≤ 22)
    (htsf : tsf ≤ 0xffffff) (hlen24 : len < 2 ^ 24) (hsid : sid < 2 ^ 32)
    (ets : Int) (rest3 : List Nat)
    (hets : Chunks.readChunkExtendedTs
      { header := { timestamp := Int.ofNat tsf, fmt := 0, cid := cid,
                    packet_type := ptype, stream_id := sid, length := len },
        clock := 0, payload := [], capacity := 0, bytes := 0,
        handled := false } rest2 = some (ets, rest3)) :
    Chunks.ReadChunk s (cid ::
        (((putUint32BE tsf).drop 1 ++
          ((putUint32BE len).drop 1 ++ [byteOf ptype]) ++ putUint32LE sid) ++
         rest2)) =
      Chunks.readChunkPayload s
        { header := { timestamp := Int.ofNat tsf, fmt := 0, cid := cid,
                      packet_type := ptype, stream_id := sid, length := len },
          clock := 0, payload := [], capacity := 0, bytes := 0,
          handled := false } cid 0 ets rest3 := by
  rw [readChunk_first s cid ptype sid len tsf rest2 hpk hcid2 hcid64 hpt htsf
    hlen24 hsid, hets]

theorem createChunks_eq (pkt : Chunks.RTMPPacket) (cs : Nat)
    (hfmt : pkt.header.fmt = 0) (hcid64 : pkt.header.cid < 64)
    (hlen : pkt.header.length = pkt.payload.length)
    (hlen1 : 1 ≤ pkt.header.length)
    (hcs : cs = 128 ∨ cs = 1024 ∨ cs = 65536) :
    Chunks.CreateChunks pkt cs =
      Chunks.rtmpChunkBasicHeaderCreate pkt.header.fmt pkt.header.cid ++
      Chunks.rtmpChunkMessageHeaderCreate pkt ++
      (if pkt.header.timestamp ≥ 0xffffff then
        putUint32BE (Chunks.int64ToUint32 pkt.header.timestamp) else []) ++
      Chunks.createChunksPayloadLoop cs
        (Chunks.rtmpChunkBasicHeaderCreate Chunks.RTMP_CHUNK_TYPE_3
            pkt.header.cid ++
          (if pkt.header.timestamp ≥ 0xffffff then
            putUint32BE (Chunks.int64ToUint32 pkt.header.timestamp) else []))
        pkt.payload := by
  have hcs0 : 0 < cs := by rcases hcs with h | h | h <;> omega
  have htp : ∀ (X : List Nat) (n : Nat), n = X.length →
      X.take n ++ List.replicate (n - X.length) 0 = X := by
    intro X n h
    subst h
    simp
  unfold Chunks.CreateChunks
  dsimp only
  apply htp
  rw [hfmt, bh0_eq _ hcid64, bh3_eq _ hcid64]
  have hmhlen : (Chunks.rtmpChunkMessageHeaderCreate pkt).length = 11 := by
    rw [mh0_eq pkt hfmt]
    split <;> simp [putUint32BE, putUint32LE]
  simp only [List.length_append, hmhlen, List.length_singleton, List.length_cons]
  rw [createChunksPayloadLoop_length cs hcs0]
  by_cases hext : pkt.header.timestamp ≥ 0xffffff
  · simp only [if_pos hext]
    simp only [putUint32BE, List.length_cons, List.length_nil, List.length_append,
      List.length_singleton]
    by_cases hmod : pkt.header.length % cs = 0
    · have hb : (pkt.header.length % cs == 0) = true := by
        simp [hmod]
      rw [hb]
      simp only [if_true]
      rw [← hlen]
      rcases hcs with h | h | h <;> subst h <;> omega
    · have hb : (pkt.header.length % cs == 0) = false := by
        simp [hmod]
      rw [hb]
      simp only [Bool.false_eq_true, if_false]
      rw [← hlen]
      rcases hcs with h | h | h <;> subst h <;> omega
  · simp only [if_neg hext]
    simp only [List.length_nil, List.length_append, List.length_singleton]
    by_cases hmod : pkt.header.length % cs = 0
    · have hb : (pkt.header.length % cs == 0) = true := by
        simp [hmod]
      rw [hb]
      simp only [if_true]
      rw [← hlen]
      rcases hcs with h | h | h <;> subst h <;> omega
    · have hb : (pkt.header.length % cs == 0) = false := by
        simp [hmod]
      rw [hb]
      simp only [Bool.false_eq_true, if_false]
      rw [← hlen]
      rcases hcs with h | h | h <;> subst h <;> omega

theorem readChunks_first_step (cs cid ptype sid len tsf : Nat) (ts : Int)
    (P EXT : List Nat) (f : Nat)
    (hcid2 : 2 ≤ cid) (hcid64 : cid < 64) (hpt : ptype ≤ 22)
    (htsf : tsf ≤ 0xffffff) (hlen24 : len < 2 ^ 24) (hsid : sid < 2 ^ 32)
    (hlen : len = P.length) (hlen1 : 1 ≤ len) (hcs0 : 0 < cs)
    (hts32 : ts ≤ 0xffffffff)
    (hets : Chunks.readChunkExtendedTs
      { header := { timestamp := Int.ofNat tsf, fmt := 0, cid := cid,
                    packet_type := ptype, stream_id := sid, length := len },
        clock := 0, payload := [], capacity := 0, bytes := 0, handled := false }
      (EXT ++ Chunks.createChunksPayloadLoop cs ((192 + cid) :: EXT) P) =
      some (ts, Chunks.createChunksPayloadLoop cs ((192 + cid) :: EXT) P))
    (hext4 : Int.ofNat tsf = 0xffffff → EXT.length = 4)
    (hnext : Int.ofNat tsf ≠ 0xffffff → EXT = [])
    (hf : P.length = f + 1) :
    ∃ sfin out, Chunks.readChunks P.length (Chunks.freshSessionIn cs)
        (cid :: (((putUint32BE tsf).drop 1 ++
          ((putUint32BE len).drop 1 ++ [byteOf ptype]) ++ putUint32LE sid) ++
          (EXT ++ Chunks.createChunksPayloadLoop cs ((192 + cid) :: EXT) P))) =
        some (sfin, out, []) ∧
      out.header.cid = cid ∧ out.header.packet_type = ptype ∧
      out.header.stream_id = sid ∧ out.header.length = len ∧
      out.clock = ts ∧ out.payload = P := by
  have hstep := readChunk_first2 (Chunks.freshSessionIn cs) cid ptype sid len tsf
    _ rfl hcid2 hcid64 hpt htsf hlen24 hsid ts _ hets
  by_cases hA : cs < P.length
  · -- multi-chunk
    have hloopstep : Chunks.createChunksPayloadLoop cs ((192 + cid) :: EXT) P =
        P.take cs ++ ((192 + cid) :: (EXT ++
          Chunks.createChunksPayloadLoop cs ((192 + cid) :: EXT) (P.drop cs))) := by
      rw [createChunksPayloadLoop_step _ _ _ (by omega) hcs0]
      simp
    have hTlen : (P.take cs).length = cs := by simp; omega
    have hpayl : Chunks.readChunkPayload (Chunks.freshSessionIn cs)
        { header := { timestamp := Int.ofNat tsf, fmt := 0, cid := cid,
                      packet_type := ptype, stream_id := sid, length := len },
          clock := 0, payload := [], capacity := 0, bytes := 0, handled := false }
        cid 0 ts (Chunks.createChunksPayloadLoop cs ((192 + cid) :: EXT) P) =
        some ({ inChunkSize := cs, inPackets := [(cid,
                  { header := { timestamp := Int.ofNat tsf, fmt := 0, cid := cid,
                                packet_type := ptype, stream_id := sid,
                                length := len },
                    clock := ts, payload := P.take cs, capacity := 1024 + len,
                    bytes := cs, handled := false })],
                clock := ts },
          (192 + cid) :: (EXT ++
            Chunks.createChunksPayloadLoop cs ((192 + cid) :: EXT) (P.drop cs)),
          none) := by
      rw [hloopstep]
      unfold Chunks.readChunkPayload
      simp only [Chunks.RTMP_CHUNK_TYPE_0, beq_self_eq_true, if_true,
        Chunks.freshSessionIn]
      rw [if_pos (show (0 : Nat) < len by omega)]
      have hsz : min (cs - 0 % cs) (len - 0) = cs := by
        rw [Nat.zero_mod]
        omega
      rw [hsz]
      rw [if_pos hcs0]
      unfold Chunks.readN
      rw [if_pos (by simp only [List.length_append, hTlen]; omega)]
      rw [List.take_left' hTlen, List.drop_left' hTlen]
      simp only [List.nil_append, Nat.zero_add]
      have hncomp : ¬(cs ≥ len) := by omega
      rw [if_neg hncomp]
      rw [if_neg (fun hh2 => hncomp hh2.1)]
      simp only [Chunks.insertPacket]
    rw [hf]
    simp only [Chunks.readChunks]
    rw [hstep.trans hpayl]
    obtain ⟨sfin, hfin⟩ := readChunks_cont cs cid P EXT hcs0 hcid2 hcid64 f
      { inChunkSize := cs, inPackets := [(cid,
          { header := { timestamp := Int.ofNat tsf, fmt := 0, cid := cid,
                        packet_type := ptype, stream_id := sid, length := len },
            clock := ts, payload := P.take cs, capacity := 1024 + len,
            bytes := cs, handled := false })],
        clock := ts }
      { header := { timestamp := Int.ofNat tsf, fmt := 0, cid := cid,
                    packet_type := ptype, stream_id := sid, length := len },
        clock := ts, payload := P.take cs, capacity := 1024 + len,
        bytes := cs, handled := false }
      rfl rfl rfl hpt (by dsimp only; omega) (by dsimp only; exact Nat.mod_self cs)
      (by dsimp only; omega) (by dsimp only; omega) rfl hts32 hext4 hnext
      (by dsimp only; omega)
    refine ⟨sfin, _, hfin, rfl, rfl, rfl, rfl, rfl, rfl⟩
  · -- single chunk
    have hloop : Chunks.createChunksPayloadLoop cs ((192 + cid) :: EXT) P = P :=
      createChunksPayloadLoop_last _ _ _ (by omega)
    have hpayl : Chunks.readChunkPayload (Chunks.freshSessionIn cs)
        { header := { timestamp := Int.ofNat tsf, fmt := 0, cid := cid,
                      packet_type := ptype, stream_id := sid, length := len },
          clock := 0, payload := [], capacity := 0, bytes := 0, handled := false }
        cid 0 ts (Chunks.createChunksPayloadLoop cs ((192 + cid) :: EXT) P) =
        some ({ inChunkSize := cs, inPackets := [(cid,
                  { header := { timestamp := Int.ofNat tsf, fmt := 0, cid := cid,
                                packet_type := ptype, stream_id := sid,
                                length := len },
                    clock := ts, payload := P, capacity := 1024 + len,
                    bytes := len, handled := true })],
                clock := ts },
          [],
          some { header := { timestamp := Int.ofNat tsf, fmt := 0, cid := cid,
                             packet_type := ptype, stream_id := sid,
                             length := len },
                 clock := ts, payload := P, capacity := 1024 + len,
                 bytes := len, handled := true }) := by
      rw [hloop]
      unfold Chunks.readChunkPayload
      simp only [Chunks.RTMP_CHUNK_TYPE_0, beq_self_eq_true, if_true,
        Chunks.freshSessionIn]
      rw [if_pos (show (0 : Nat) < len by omega)]
      have hsz : min (cs - 0 % cs) (len - 0) = len := by
        rw [Nat.zero_mod]
        omega
      rw [hsz]
      rw [if_pos (by omega)]
      unfold Chunks.readN
      rw [if_pos (by omega)]
      rw [hlen, List.take_length, List.drop_length]
      simp only [List.nil_append, Nat.zero_add]
      rw [← hlen]
      rw [if_pos (show len ≥ len from le_refl len)]
      rw [if_pos ⟨show len ≥ len from le_refl len, hts32⟩]
      simp only [Chunks.insertPacket]
    rw [hf]
    simp only [Chunks.readChunks]
    rw [hstep.trans hpayl]
    exact ⟨_, _, rfl, rfl, rfl, rfl, rfl, rfl, rfl⟩

/-- C3: round-trip of the chunk codec on its working domain.  For every
fully assembled type-0 message with channel id in 2..63 (the one-byte basic
header range; larger channel ids are corrupted by the encoder's
`byte(cid-64>>8)` and the decoder's `(64+b1+b2)<<8`, see the companion
counterexample), message type ≤ 22, 32-bit stream id, timestamp in
[0, 2^32) and a payload of the declared length (1 ≤ length < 2^24), and for
every `out_chunk_size` in {128, 1024, 65536}, parsing the byte stream
produced by `CreateChunks` with the inbound chunk parser `ReadChunk`
(iterated by `readChunks`) reassembles exactly the original message: same
channel id, message type, stream id, length, clock (= the original
timestamp, including the extended-timestamp path) and the identical payload
bytes, consuming the entire stream. -/
theorem chunk_roundtrip_amended (pkt : Chunks.RTMPPacket) (cs : Nat)
    (hfmt : pkt.header.fmt = 0)
    (hcid2 : 2 ≤ pkt.header.cid) (hcid64 : pkt.header.cid < 64)
    (hpt : pkt.header.packet_type ≤ 22)
    (hsid : pkt.header.stream_id < 2 ^ 32)
    (hts0 : 0 ≤ pkt.header.timestamp) (hts32 : pkt.header.timestamp < 2 ^ 32)
    (hlen : pkt.header.length = pkt.payload.length)
    (hlen1 : 1 ≤ pkt.header.length) (hlen24 : pkt.header.length < 2 ^ 24)
    (hcs : cs = 128 ∨ cs = 1024 ∨ cs = 65536) :
    ∃ sfin out, Chunks.readChunks pkt.payload.length (Chunks.freshSessionIn cs)
        (Chunks.CreateChunks pkt cs) = some (sfin, out, []) ∧
      out.header.cid = pkt.header.cid ∧
      out.header.packet_type = pkt.header.packet_type ∧
      out.header.stream_id = pkt.header.stream_id ∧
      out.header.length = pkt.header.length ∧
      out.clock = pkt.header.timestamp ∧
      out.payload = pkt.payload := by
  have hcs0 : 0 < cs := by rcases hcs with h | h | h <;> omega
  have hP1 : 1 ≤ pkt.payload.length := by omega
  rw [createChunks_eq pkt cs hfmt hcid64 hlen hlen1 hcs]
  rw [hfmt, bh0_eq _ hcid64, bh3_eq _ hcid64, mh0_eq pkt hfmt]
  by_cases hext : pkt.header.timestamp ≥ 0xffffff
  · simp only [if_pos hext]
    have hEXTlen : (putUint32BE (Chunks.int64ToUint32 pkt.header.timestamp)).length
        = 4 := by simp [putUint32BE]
    have hets : Chunks.readChunkExtendedTs
        { header := { timestamp := Int.ofNat 0xffffff, fmt := 0,
                      cid := pkt.header.cid, packet_type := pkt.header.packet_type,
                      stream_id := pkt.header.stream_id,
                      length := pkt.header.length },
          clock := 0, payload := [], capacity := 0, bytes := 0, handled := false }
        (putUint32BE (Chunks.int64ToUint32 pkt.header.timestamp) ++
          Chunks.createChunksPayloadLoop cs
            ((192 + pkt.header.cid) ::
              putUint32BE (Chunks.int64ToUint32 pkt.header.timestamp))
            pkt.payload) =
        some (pkt.header.timestamp,
          Chunks.createChunksPayloadLoop cs
            ((192 + pkt.header.cid) ::
              putUint32BE (Chunks.int64ToUint32 pkt.header.timestamp))
            pkt.payload) := by
      unfold Chunks.readChunkExtendedTs
      rw [if_pos (by simp)]
      unfold Chunks.readN
      rw [if_pos (by simp only [List.length_append, hEXTlen]; omega)]
      rw [List.take_left' hEXTlen, List.drop_left' hEXTlen]
      have hval : Int.ofNat (getUint32BE
          (putUint32BE (Chunks.int64ToUint32 pkt.header.timestamp))) =
          pkt.header.timestamp := by
        rw [getPut32BE _ (by unfold Chunks.int64ToUint32; omega)]
        unfold Chunks.int64ToUint32
        simp only [Int.ofNat_eq_natCast]
        omega
      dsimp only
      rw [hval]
    have hse : ([pkt.header.cid] ++
        ((putUint32BE 0xffffff).drop 1 ++
          ((putUint32BE pkt.header.length).drop 1 ++
            [byteOf pkt.header.packet_type]) ++
          putUint32LE pkt.header.stream_id) ++
        putUint32BE (Chunks.int64ToUint32 pkt.header.timestamp) ++
        Chunks.createChunksPayloadLoop cs
          ([192 + pkt.header.cid] ++
            putUint32BE (Chunks.int64ToUint32 pkt.header.timestamp))
          pkt.payload) =
        (pkt.header.cid ::
          (((putUint32BE 0xffffff).drop 1 ++
            ((putUint32BE pkt.header.length).drop 1 ++
              [byteOf pkt.header.packet_type]) ++
            putUint32LE pkt.header.stream_id) ++
          (putUint32BE (Chunks.int64ToUint32 pkt.header.timestamp) ++
            Chunks.createChunksPayloadLoop cs
              ((192 + pkt.header.cid) ::
                putUint32BE (Chunks.int64ToUint32 pkt.header.timestamp))
              pkt.payload))) := by
      simp [List.append_assoc]
    rw [hse]
    obtain ⟨sfin, out, h1, h2, h3, h4, h5, h6, h7⟩ :=
      readChunks_first_step cs pkt.header.cid pkt.header.packet_type
        pkt.header.stream_id pkt.header.length 0xffffff pkt.header.timestamp
        pkt.payload (putUint32BE (Chunks.int64ToUint32 pkt.header.timestamp))
        (pkt.payload.length - 1) hcid2 hcid64 hpt (by omega) hlen24 hsid hlen
        hlen1 hcs0 (by omega) hets (fun _ => hEXTlen)
        (fun h => absurd rfl h) (by omega)
    exact ⟨sfin, out, h1, h2, h3, h4, h5, h6, h7⟩
  · simp only [if_neg hext]
    have htsfle : Chunks.int64ToUint32 pkt.header.timestamp ≤ 0xffffff := by
      unfold Chunks.int64ToUint32
      omega
    have hvofn : Int.ofNat (Chunks.int64ToUint32 pkt.header.timestamp) =
        pkt.header.timestamp := by
      unfold Chunks.int64ToUint32
      simp only [Int.ofNat_eq_natCast]
      omega
    have hets : Chunks.readChunkExtendedTs
        { header :=
            { timestamp := Int.ofNat (Chunks.int64ToUint32 pkt.header.timestamp),
              fmt := 0, cid := pkt.header.cid,
              packet_type := pkt.header.packet_type,
              stream_id := pkt.header.stream_id, length := pkt.header.length },
          clock := 0, payload := [], capacity := 0, bytes := 0, handled := false }
        ([] ++ Chunks.createChunksPayloadLoop cs
          ((192 + pkt.header.cid) :: []) pkt.payload) =
        some (pkt.header.timestamp,
          Chunks.createChunksPayloadLoop cs
            ((192 + pkt.header.cid) :: []) pkt.payload) := by
      unfold Chunks.readChunkExtendedTs
      rw [if_neg (by
        simp only [beq_iff_eq]
        unfold Chunks.int64ToUint32
        simp only [Int.ofNat_eq_natCast]
        omega)]
      rw [List.nil_append]
      dsimp only
      rw [hvofn]
    have hse : ([pkt.header.cid] ++
        ((putUint32BE (Chunks.int64ToUint32 pkt.header.timestamp)).drop 1 ++
          ((putUint32BE pkt.header.length).drop 1 ++
            [byteOf pkt.header.packet_type]) ++
          putUint32LE pkt.header.stream_id) ++
        [] ++
        Chunks.createChunksPayloadLoop cs ([192 + pkt.header.cid] ++ [])
          pkt.payload) =
        (pkt.header.cid ::
          (((putUint32BE (Chunks.int64ToUint32 pkt.header.timestamp)).drop 1 ++
            ((putUint32BE pkt.header.length).drop 1 ++
              [byteOf pkt.header.packet_type]) ++
            putUint32LE pkt.header.stream_id) ++
          ([] ++ Chunks.createChunksPayloadLoop cs
            ((192 + pkt.header.cid) :: []) pkt.payload))) := by
      simp [List.append_assoc]
    rw [hse]
    obtain ⟨sfin, out, h1, h2, h3, h4, h5, h6, h7⟩ :=
      readChunks_first_step cs pkt.header.cid pkt.header.packet_type
        pkt.header.stream_id pkt.header.length
        (Chunks.int64ToUint32 pkt.header.timestamp) pkt.header.timestamp
        pkt.payload [] (pkt.payload.length - 1) hcid2 hcid64 hpt htsfle hlen24
        hsid hlen hlen1 hcs0 (by omega) hets
        (fun h => absurd h (by rw [hvofn]; omega))
        (fun _ => rfl) (by omega)
    exact ⟨sfin, out, h1, h2, h3, h4, h5, h6, h7⟩

/-- C3 counterexample: the claimed domain "any channel id in 2..65599" is
wrong.  For channel id 319 the encoder emits basic-header bytes `[1, 255,
63]` (its third byte is `byte(cid-64>>8)`, which Go parses as
`byte(cid - (64>>8)) = byte(cid)`), and the decoder computes
`(64 + 255 + 63) << 8 = 97792`: the reassembled packet carries channel id
97792, not 319. -/
theorem chunk_roundtrip_fails_at_cid_319 :
    (Chunks.readChunks 2 (Chunks.freshSessionIn 128)
        (Chunks.CreateChunks
          { header := { timestamp := 0, fmt := 0, cid := 319, packet_type := 8,
                        stream_id := 1, length := 1 },
            clock := 0, payload := [0xAB], capacity := 0, bytes := 0,
            handled := false } 128)).map (fun r => r.2.1.header.cid) =
      some 97792 ∧ (319 : Nat) ≠ 97792 := by
  refine ⟨?_, by decide⟩
  have hcc : Chunks.CreateChunks
      { header := { timestamp := 0, fmt := 0, cid := 319, packet_type := 8,
                    stream_id := 1, length := 1 },
        clock := 0, payload := [0xAB], capacity := 0, bytes := 0,
        handled := false } 128 =
      [1, 255, 63, 0, 0, 0, 0, 0, 1, 8, 1, 0, 0, 0, 0xAB] := by
    unfold Chunks.CreateChunks
    dsimp only
    rw [createChunksPayloadLoop_last _ _ _ (by norm_num)]
    decide
  rw [hcc]
  decide

/-- Witness for the C3 theorem at a concrete two-byte message. -/
theorem chunk_roundtrip_amended_witness :
    ∃ sfin out, Chunks.readChunks
        ([17, 34] : List Nat).length (Chunks.freshSessionIn 128)
        (Chunks.CreateChunks
          { header := { timestamp := 5, fmt := 0, cid := 4, packet_type := 8,
                        stream_id := 1, length := 2 },
            clock := 0, payload := [17, 34], capacity := 0, bytes := 0,
            handled := false } 128) = some (sfin, out, []) ∧
      out.header.cid = 4 ∧
      out.header.packet_type = 8 ∧ out.header.stream_id = 1 ∧
      out.header.length = 2 ∧ out.clock = 5 ∧ out.payload = [17, 34] :=
  chunk_roundtrip_amended
    { header := { timestamp := 5, fmt := 0, cid := 4, packet_type := 8,
                  stream_id := 1, length := 2 },
      clock := 0, payload := [17, 34], capacity := 0, bytes := 0,
      handled := false } 128 rfl (by decide) (by decide) (by decide) (by decide)
    (by decide) (by decide) rfl (by decide) (by decide) (Or.inl rfl)
